import Mathlib

/-!
Verification development for the byomEds repository: a shallow embedding of
the course-viewer App Builder action (`src/app-builder/actions/demo/course-viewer/helpers.js`),
the browser course-info block (`src/blocks/course-info/course-info.js`) and the
OAuth helper (`src/scripts/alm-auth.js`), together with theorems settling the
behavioural claims about the course-data normalisation and HTML-assembly
pipeline.

Modelling conventions:
* JavaScript values manipulated by the code are modelled by the inductive
  type `Json`; the JavaScript value `undefined` is modelled as `Option.none`
  at member-access boundaries and never as a `Json` value.
* Numbers are modelled as integers (`Int`): every numeric value the pipeline
  actually computes with is integral, and IEEE floating point is out of scope.
  `NaN` is modelled as `Option.none` at coercion boundaries (`jsToNumber`).
* Member access on `null`/`undefined` throws a `TypeError` in JavaScript;
  fallible computations therefore live in `JsM := Except String`.
* External effects (HTTP fetches, `Math.random`, the clock, `JSON.parse`) are
  passed in as explicit arguments, so the embedded functions are pure.
-/

/-- JSON-like JavaScript values as manipulated by the repository. Objects are
association lists in document order with unique keys (the shape produced by
parsing a JSON document). -/
inductive Json where
  | null : Json
  | bool (b : Bool) : Json
  | num (n : Int) : Json
  | str (s : String) : Json
  | arr (elems : List Json) : Json
  | obj (fields : List (String × Json)) : Json

/-- JavaScript truthiness of a value: `null`, `false`, `0` and the empty
string are falsy, arrays and objects are always truthy. -/
def truthy : Json → Bool
  | .null => false
  | .bool b => b
  | .num n => n != 0
  | .str s => s != ""
  | .arr _ => true
  | .obj _ => true

/-- Digit-string value of a list of decimal digit characters. -/
def digitsVal (cs : List Char) : Nat :=
  cs.foldl (fun a c => a * 10 + (c.toNat - '0'.toNat)) 0

/-- Canonical array-index parse of a property key, as used by JavaScript for
indexed access: only the canonical decimal numeral of a natural number (no
sign, no leading zeros except for 0 itself) denotes an index. -/
def canonicalIndex (k : String) : Option Nat :=
  let cs := k.data
  if cs ≠ [] ∧ cs.all Char.isDigit ∧ (cs = ['0'] ∨ cs.head? ≠ some '0') then
    some (digitsVal cs)
  else none

/-- JavaScript member access `v[key]`, returning `none` for `undefined`.
Objects look up their field; arrays and strings expose `length` and their
canonically-indexed elements (a string index yields a one-character string);
all other values have no own properties. Inherited prototype properties are
not modelled (the code never reads any). -/
def jsGetO : Json → String → Option Json
  | .obj fs, k => fs.lookup k
  | .arr xs, k =>
    if k = "length" then some (.num xs.length)
    else match canonicalIndex k with
      | some i => xs.get? i
      | none => none
  | .str s, k =>
    if k = "length" then some (.num s.length)
    else match canonicalIndex k with
      | some i => (s.data.get? i).map (fun c => .str (String.mk [c]))
      | none => none
  | _, _ => none

/-- Truthiness of a possibly-`undefined` value. -/
def truthyO : Option Json → Bool
  | none => false
  | some v => truthy v

/-- JavaScript strict equality `a === b` on the shapes this code compares:
primitives compare by value, `undefined === undefined` is true, and distinct
parsed objects/arrays are never reference-identical. -/
def jsStrictEqO : Option Json → Option Json → Bool
  | none, none => true
  | some .null, some .null => true
  | some (.bool a), some (.bool b) => a == b
  | some (.num a), some (.num b) => a == b
  | some (.str a), some (.str b) => a == b
  | _, _ => false

/-- Test whether a value is exactly the string `s` (strict equality against a
string literal). -/
def jsIsStr : Json → String → Bool
  | .str t, s => t == s
  | _, _ => false

/-- The JavaScript idiom `x || d`: keep `x` when truthy, otherwise `d`. -/
def jsOr (x d : Json) : Json := if truthy x then x else d

/-- The JavaScript idiom `x || d` where `x` may be `undefined`. -/
def jsOrO (x : Option Json) (d : Json) : Json :=
  match x with
  | some v => if truthy v then v else d
  | none => d

/-- Optional chaining `x?.k` on a possibly-`undefined`/`null` base: access on
`undefined` or `null` yields `undefined` instead of throwing. -/
def jsOptChain (x : Option Json) (k : String) : Option Json :=
  match x with
  | none => none
  | some .null => none
  | some v => jsGetO v k

/-- Fallible computations: `Except.error` models a thrown JavaScript
exception (for this code base always a `TypeError`). -/
abbrev JsM := Except String

/-- Plain member access `v.k` where `v` is a defined value: throws on `null`
(as JavaScript does), otherwise looks the key up. -/
def jsSel (v : Json) (k : String) : JsM (Option Json) :=
  match v with
  | .null => .error "TypeError"
  | _ => .ok (jsGetO v k)

/-- Plain member access `x.k` where `x` may also be `undefined`. -/
def jsSelO (x : Option Json) (k : String) : JsM (Option Json) :=
  match x with
  | none => .error "TypeError"
  | some v => jsSel v k

/-- One `reduce` step of `safeGet` (helpers.js lines 6-10 and 497-501):
`current && current[key] !== undefined ? current[key] : defaultValue`. -/
def safeGetStep (dflt : Json) (current : Json) (key : String) : Json :=
  if truthy current then
    match jsGetO current key with
    | some v => v
    | none => dflt
  else dflt

/-- `safeGet` on an already-split path. -/
def safeGetL (obj : Json) (keys : List String) (dflt : Json) : Json :=
  keys.foldl (safeGetStep dflt) obj

/-- Structural splitter for `String.prototype.split` with a one-character
separator (the code only ever splits on `'.'`, `'/'`, `':'` and `'_'`).
Accumulates the current piece and starts a new piece at each separator. -/
def splitCharAux (sep : Char) : List Char → List Char → List (List Char)
  | [], acc => [acc]
  | c :: cs, acc =>
    if c = sep then acc :: splitCharAux sep cs []
    else splitCharAux sep cs (acc ++ [c])

/-- `s.split(sep)` for a one-character separator. -/
def jsSplit (s : String) (sep : Char) : List String :=
  (splitCharAux sep s.data []).map String.mk

/-- `safeGet` from helpers.js: the helpers-module copy (lines 6-10) and the
course-viewer action copy (lines 497-501) are character-for-character
identical, so a single definition embeds both. -/
def safeGet (obj : Json) (path : String) (dflt : Json) : Json :=
  safeGetL obj (jsSplit path '.') dflt

/-- Lookup along a path requiring, as the reduce step effectively does, that
every intermediate value is truthy and every component is present. -/
def pathLookupTruthy : Json → List String → Option Json
  | v, [] => some v
  | v, k :: ks =>
    if truthy v then
      match jsGetO v k with
      | some w => pathLookupTruthy w ks
      | none => none
    else none

/-- Lookup along a path requiring only that every component is present and
defined, with no truthiness requirement: this is the reading of the claim
that `safeGet` returns the stored value when every path component exists and
is not undefined. -/
def pathLookupPlain : Json → List String → Option Json
  | v, [] => some v
  | v, k :: ks =>
    match jsGetO v k with
    | some w => pathLookupPlain w ks
    | none => none

/-- Structural intercalation of strings (used instead of the non-reducing
library version). -/
def strIntercalate (sep : String) : List String → String
  | [] => ""
  | [x] => x
  | x :: y :: rest => x ++ sep ++ strIntercalate sep (y :: rest)

/-- Depth-bounded JavaScript ToString used when a value is interpolated into
a template literal: strings stay themselves, numbers and booleans print,
`null` prints as "null", objects print as "[object Object]" and arrays join
their recursively-printed elements with commas, `null` elements printing as
the empty string. The fuel bounds array-nesting depth; JavaScript itself
aborts this recursion at its call-stack limit, and every value in scope is a
parsed JSON:API payload of small depth, so the bound is never reached. -/
def jsToStringF : Nat → Json → String
  | _, .null => "null"
  | _, .bool b => cond b "true" "false"
  | _, .num n => toString n
  | _, .str s => s
  | _, .obj _ => "[object Object]"
  | 0, .arr _ => ""
  | fuel + 1, .arr xs =>
    strIntercalate "," (xs.map (fun x =>
      match x with
      | .null => ""
      | v => jsToStringF fuel v))

/-- Template-literal interpolation of a defined value. -/
def jsToString (v : Json) : String := jsToStringF 64 v

/-- Template-literal interpolation of a possibly-`undefined` value
(`undefined` prints as "undefined"). -/
def jsToStringO : Option Json → String
  | none => "undefined"
  | some v => jsToString v

/-- `Array.prototype.join(sep)` over possibly-`undefined` elements:
`undefined` and `null` elements join as empty strings, other elements by
their ToString. -/
def jsJoinO (sep : String) (xs : List (Option Json)) : String :=
  strIntercalate sep (xs.map (fun x =>
    match x with
    | none => ""
    | some .null => ""
    | some v => jsToString v))

/-- Character-level escaping map of `escapeHtml` (helpers.js lines 1003-1017). -/
def escChar (c : Char) : List Char :=
  if c = '&' then "&amp;".data
  else if c = '<' then "&lt;".data
  else if c = '>' then "&gt;".data
  else if c = '"' then "&quot;".data
  else if c = '\'' then "&#039;".data
  else [c]

/-- String case of `escapeHtml`: replace every special character by its
entity. -/
def escapeHtmlStr (s : String) : String :=
  String.mk (s.data.foldr (fun c acc => escChar c ++ acc) [])

/-- `escapeHtml` from helpers.js lines 1003-1017: values that are not
strings are returned unchanged (the `typeof text !== 'string'` early
return). -/
def escapeHtml : Json → Json
  | .str s => .str (escapeHtmlStr s)
  | v => v

/-- Interpolation of `escapeHtml(v)` for a defined value. -/
def esc (v : Json) : String := jsToString (escapeHtml v)

/-- Interpolation of `escapeHtml(v)` where `v` may be `undefined`
(`escapeHtml` passes `undefined` through unchanged). -/
def escO (x : Option Json) : String :=
  match x with
  | none => "undefined"
  | some v => esc v

/-- JavaScript ToNumber at the points where this code does arithmetic on a
value, with `none` modelling `NaN`: integers are themselves, `null` and
`false` are 0, `true` is 1; strings are parsed as optionally-signed decimal
numerals (the empty and all-whitespace string is 0); arrays and objects are
out of scope of the model and map to `NaN`. -/
def jsToNumber : Json → Option Int
  | .num n => some n
  | .null => some 0
  | .bool b => some (cond b 1 0)
  | .str s =>
    let cs := s.data.dropWhile (fun c => c = ' ' || c = '\t' || c = '\n' || c = '\r')
    match cs with
    | [] => some 0
    | '-' :: rest => if rest ≠ [] ∧ rest.all Char.isDigit then some (-(digitsVal rest : Int)) else none
    | '+' :: rest => if rest ≠ [] ∧ rest.all Char.isDigit then some ((digitsVal rest : Int)) else none
    | rest => if rest.all Char.isDigit then some ((digitsVal rest : Int)) else none
  | .arr _ => none
  | .obj _ => none

namespace ActionHelpers

/-- `formatDuration` from the helpers module (helpers.js lines 57-63):
falsy input gives "N/A"; otherwise hours and minutes are computed with
`Math.floor` and the JavaScript remainder, and the result is always
"Hh Mm" when there is at least one hour, "Mm" otherwise. Non-numeric truthy
input makes both components `NaN`. -/
def formatDuration (seconds : Json) : String :=
  if !truthy seconds then "N/A"
  else
    match jsToNumber seconds with
    | none => "NaNm"
    | some s =>
      let hours := Int.fdiv s 3600
      let minutes := Int.fdiv (Int.tmod s 3600) 60
      if hours > 0 then toString hours ++ "h " ++ toString minutes ++ "m"
      else toString minutes ++ "m"

end ActionHelpers

/-- `formatDuration` from the course-viewer action (helpers.js lines
644-655): falsy input (the `seconds === 0` disjunct is subsumed by
falsiness) gives "N/A"; with at least one hour the minutes component is
printed only when it is non-zero. -/
def formatDuration (seconds : Json) : String :=
  if !truthy seconds then "N/A"
  else
    match jsToNumber seconds with
    | none => "NaNm"
    | some s =>
      let hours := Int.fdiv s 3600
      let minutes := Int.fdiv (Int.tmod s 3600) 60
      if hours > 0 then
        if minutes > 0 then toString hours ++ "h " ++ toString minutes ++ "m"
        else toString hours ++ "h"
      else toString minutes ++ "m"

/-! ### OAuth helper (src/scripts/alm-auth.js) -/

/-- Browser `sessionStorage` snapshot: what `getItem` returns for each key
(`none` is a missing key). -/
abbrev Storage := String → Option String

/-- JavaScript `parseInt` on the stored expiry string, modelled for decimal
numerals: optional leading whitespace and sign followed by a non-empty digit
prefix; `none` models `NaN`. Hexadecimal prefixes are not modelled (the
store only ever writes `Date.now().toString()`). -/
def parseIntJS (s : String) : Option Int :=
  let cs := s.data.dropWhile (fun c => c = ' ' || c = '\t' || c = '\n' || c = '\r')
  match cs with
  | '-' :: rest =>
    let ds := rest.takeWhile Char.isDigit
    if ds = [] then none else some (-(digitsVal ds : Int))
  | '+' :: rest =>
    let ds := rest.takeWhile Char.isDigit
    if ds = [] then none else some ((digitsVal ds : Int))
  | rest =>
    let ds := rest.takeWhile Char.isDigit
    if ds = [] then none else some ((digitsVal ds : Int))

/-- The five-minute expiry buffer of alm-auth.js (milliseconds). -/
def bufferTime : Int := 5 * 60 * 1000

/-- `isAuthenticated` from alm-auth.js lines 30-44: false when either the
token or the expiry entry is missing or empty, otherwise true exactly when
the current time is strictly below the parsed expiry minus the five-minute
buffer (a `NaN` expiry makes the comparison false). -/
def isAuthenticated (store : Storage) (now : Int) : Bool :=
  match store "alm_access_token", store "alm_token_expiry" with
  | some tok, some exp =>
    if tok = "" || exp = "" then false
    else
      match parseIntJS exp with
      | none => false
      | some e => now < e - bufferTime
  | _, _ => false

/-- `getAccessToken` from alm-auth.js lines 50-55. -/
def getAccessToken (store : Storage) (now : Int) : Option String :=
  if isAuthenticated store now then store "alm_access_token" else none

/-! ### Course-viewer action: data normalisation (helpers.js lines 437-655) -/

/-- One per-module entry of the flat record (the objects pushed by
`extractCoreModules`, helpers.js lines 557-568). Fields read straight off
raw property accesses are `Option Json` because they can be `undefined`. -/
structure ModuleR where
  id : Option Json
  courseId : Option Json
  name : Option Json
  type : String
  contentType : Json
  duration : String
  status : String
  isCompleted : Bool
  statusText : String
  statusIcon : String

/-- One prerequisite entry (helpers.js lines 595-599). -/
structure PrereqR where
  id : Option Json
  name : Option Json
  type : Json

/-- One job-aid entry (helpers.js lines 629-633). -/
structure JobAidR where
  id : Option Json
  name : Option Json
  description : Json

/-- The flat course record returned by `processCourseData` (helpers.js
lines 472-491). -/
structure CourseRecord where
  courseId : Json
  instanceId : Json
  courseTitle : Json
  courseDescription : Json
  courseOverview : Json
  courseType : String
  courseDuration : String
  courseLevel : Json
  courseSkills : String
  enrollmentCount : Json
  ratingAvg : Json
  ratingCount : Json
  imageUrl : Json
  loFormat : Json
  coreModules : List ModuleR
  prerequisites : List PrereqR
  jobAids : List JobAidR
  timestamp : String

/-- `courseResponse.included || []` as the value the later `.find` calls run
on: falsy or missing `included` becomes the empty array; a truthy non-array
is kept and makes those calls throw. -/
def includedValue (doc : Json) : Json :=
  match jsGetO doc "included" with
  | some v => if truthy v then v else .arr []
  | none => .arr []

/-- `xs.find(pred)` over a list with an effectful predicate (the callbacks
dereference properties of the elements and can throw). -/
def jsFindListM (p : Json → JsM Bool) : List Json → JsM (Option Json)
  | [] => .ok none
  | x :: xs => do
    let b ← p x
    if b then return (some x) else jsFindListM p xs

/-- `v.find(pred)` where `v` is expected to be an array: calling `.find` on
any other value throws. -/
def jsFindM (p : Json → JsM Bool) : Json → JsM (Option Json)
  | .arr xs => jsFindListM p xs
  | _ => .error "TypeError"

/-- The `included.find(item => item.id === outer.id)` callback shared by the
module, prerequisite and job-aid lookups: the element id is dereferenced
first, then the id of the outer item, exactly as JavaScript evaluates the
strict equality. -/
def idMatchesRes (outer item : Json) : JsM Bool := do
  let iid ← jsSel item "id"
  let rid ← jsSel outer "id"
  return jsStrictEqO iid rid

/-- One step of a truthiness-guarded property chain `base && base.k`:
`none` when the base is missing or falsy, otherwise the property value. -/
def chainGet (x : Option Json) (k : String) : Option Json :=
  match x with
  | some v => if truthy v then jsGetO v k else none
  | none => none

/-- The `attributes.localizedMetadata && attributes.localizedMetadata[0]`
guard: the first localized metadata entry when both are truthy. -/
def localizedFirst (attrs : Json) : Option Json :=
  match jsGetO attrs "localizedMetadata" with
  | some lmv =>
    if truthy lmv then
      match jsGetO lmv "0" with
      | some lm0 => if truthy lm0 then some lm0 else none
      | none => none
    else none
  | none => none

/-- The shared metadata-name pattern: the name of the first localized
metadata entry when present (possibly `undefined`), otherwise the fallback
object built as `attributes.name || fallback`. -/
def metaNameOf (attrs : Json) (fallback : String) : Option Json :=
  match localizedFirst attrs with
  | some lm0 => jsGetO lm0 "name"
  | none => some (jsOrO (jsGetO attrs "name") (.str fallback))

/-- The job-aid description pattern `metadata.description || defaultText`:
the fallback metadata object carries an empty description, so both a missing
first metadata entry and a falsy description produce the default text. -/
def metaDescOf (attrs : Json) : Json :=
  match localizedFirst attrs with
  | some lm0 => jsOrO (jsGetO lm0 "description") (.str "Job aid description")
  | none => .str "Job aid description"

/-- ASCII lowering for `moduleType.toLowerCase()` (the only compared value
is the ASCII string "self-paced"). -/
def strToLower (s : String) : String := String.mk (s.data.map Char.toLower)

/-- `extractSkills` (course-viewer copy, helpers.js lines 506-516) over the
included list: pushes `item.attributes.name` for every item of type
`skill`; the unguarded attributes access throws when such an item has no
attributes. -/
def extractSkillsList : List Json → JsM (List (Option Json))
  | [] => .ok []
  | item :: rest => do
    let ty ← jsSel item "type"
    if jsStrictEqO ty (some (.str "skill")) then
      let attrs ← jsSel item "attributes"
      let nm ← jsSelO attrs "name"
      let tail ← extractSkillsList rest
      return nm :: tail
    else
      extractSkillsList rest

/-- `extractSkills(courseResponse)` (helpers.js lines 506-516). -/
def extractSkills (doc : Json) : JsM (List (Option Json)) := do
  let inc ← jsSel doc "included"
  match inc with
  | none => return []
  | some v =>
    if truthy v then
      match v with
      | .arr xs => extractSkillsList xs
      | _ => .error "TypeError"
    else return []

/-- The per-resource loop of `extractCoreModules` (helpers.js lines
534-570): the counter `k` indexes the completion-status draws, one per
pushed module, modelling the `Math.random() > 0.5` outcomes. -/
def coreModulesList (includedVal : Json) (cid : Option Json) (coin : Nat → Bool) :
    List Json → Nat → JsM (List ModuleR)
  | [], _ => .ok []
  | resource :: rest, k => do
    let resourceData ← jsFindM (idMatchesRes resource) includedVal
    match resourceData with
    | some rd =>
      let attrsO ← jsSel rd "attributes"
      match attrsO with
      | some attrs =>
        if truthy attrs then do
          let metaName := metaNameOf attrs "Module"
          let isCompleted := coin k
          let status := if isCompleted then "completed" else "in-progress"
          let moduleTypeJ := jsOrO (jsGetO attrs "loFormat") (.str "Self-paced")
          let mt ← (match moduleTypeJ with
            | .str s => Except.ok s
            | _ => Except.error "TypeError")
          let moduleDuration :=
            if strToLower mt = "self-paced" then "Self-paced"
            else formatDuration
              (jsOrO (jsGetO attrs "desiredDuration")
                (jsOrO (jsGetO attrs "duration") (.num 900)))
          let rid ← jsSel resource "id"
          let m : ModuleR :=
            { id := rid, courseId := cid, name := metaName, type := mt,
              contentType := jsOrO (jsGetO attrs "contentType") (.str "SCORM2004"),
              duration := moduleDuration, status := status,
              isCompleted := isCompleted,
              statusText := if isCompleted then "Last visited" else "In Progress",
              statusIcon := if isCompleted then "‚úì" else "‚è±Ô∏è" }
          let tail ← coreModulesList includedVal cid coin rest (k + 1)
          return m :: tail
        else coreModulesList includedVal cid coin rest k
      | none => coreModulesList includedVal cid coin rest k
    | none => coreModulesList includedVal cid coin rest k

/-- `extractCoreModules` (helpers.js lines 521-575). -/
def extractCoreModules (doc : Json) (coin : Nat → Bool) : JsM (List ModuleR) := do
  let dO ← jsSel doc "data"
  let rels ← jsSelO dO "relationships"
  let dv := dO.getD .null
  let instsO := chainGet rels "instances"
  let dataO := chainGet instsO "data"
  match dataO with
  | some dataV =>
    if truthy dataV then do
      let instId := jsOptChain (jsGetO dataV "0") "id"
      let instanceData ← jsFindM (fun item => do
          let iid ← jsSel item "id"
          if jsStrictEqO iid instId then
            let ty ← jsSel item "type"
            return jsStrictEqO ty (some (.str "learningObjectInstance"))
          else
            return false) (includedValue doc)
      match instanceData with
      | some inst => do
        let irels ← jsSel inst "relationships"
        let loresO := chainGet irels "loResources"
        match loresO with
        | some loresV =>
          if truthy loresV then
            match jsGetO loresV "data" with
            | some (.arr resources) =>
              coreModulesList (includedValue doc) (jsGetO dv "id") coin resources 0
            | some _ => .error "TypeError"
            | none => .error "TypeError"
          else return []
        | none => return []
      | none => return []
    else return []
  | none => return []

/-- The per-prerequisite loop of `extractPrerequisites` (helpers.js lines
587-601). -/
def prereqList (includedVal : Json) : List Json → JsM (List PrereqR)
  | [] => .ok []
  | prereq :: rest => do
    let prereqData ← jsFindM (idMatchesRes prereq) includedVal
    match prereqData with
    | some pd =>
      let attrsO ← jsSel pd "attributes"
      match attrsO with
      | some attrs =>
        if truthy attrs then do
          let pid ← jsSel prereq "id"
          let p : PrereqR :=
            { id := pid, name := metaNameOf attrs "Prerequisite Course",
              type := jsOrO (jsGetO attrs "loFormat") (.str "Self-paced") }
          let tail ← prereqList includedVal rest
          return p :: tail
        else prereqList includedVal rest
      | none => prereqList includedVal rest
    | none => prereqList includedVal rest

/-- `extractPrerequisites` (helpers.js lines 580-605). -/
def extractPrerequisites (doc : Json) : JsM (List PrereqR) := do
  let dO ← jsSel doc "data"
  let rels ← jsSelO dO "relationships"
  let preO := chainGet rels "prerequisiteLOs"
  let dataO := chainGet preO "data"
  if truthyO dataO then
    match dataO with
    | some (.arr items) => prereqList (includedValue doc) items
    | _ => .error "TypeError"
  else return []

/-- The `supplementaryLOs.data.filter` callback loop of `extractJobAids`
(helpers.js lines 617-620): keeps the items whose resolved included record
is truthy with truthy attributes of loType `jobAid`. -/
def jobAidFilter (includedVal : Json) : List Json → JsM (List Json)
  | [] => .ok []
  | item :: rest => do
    let itemData ← jsFindM (idMatchesRes item) includedVal
    let keep ← (match itemData with
      | some idv => do
        let attrsO ← jsSel idv "attributes"
        match attrsO with
        | some attrs =>
          if truthy attrs then
            Except.ok (jsStrictEqO (jsGetO attrs "loType") (some (.str "jobAid")))
          else Except.ok false
        | none => Except.ok false
      | none => Except.ok false)
    let tail ← jobAidFilter includedVal rest
    return (if keep then item :: tail else tail)

/-- The `jobAidItems.forEach` loop of `extractJobAids` (helpers.js lines
622-635). -/
def jobAidBuild (includedVal : Json) : List Json → JsM (List JobAidR)
  | [] => .ok []
  | jobAid :: rest => do
    let jobAidData ← jsFindM (idMatchesRes jobAid) includedVal
    match jobAidData with
    | some jd =>
      let attrsO ← jsSel jd "attributes"
      match attrsO with
      | some attrs =>
        if truthy attrs then do
          let jid ← jsSel jobAid "id"
          let j : JobAidR :=
            { id := jid, name := metaNameOf attrs "Job Aid",
              description := metaDescOf attrs }
          let tail ← jobAidBuild includedVal rest
          return j :: tail
        else jobAidBuild includedVal rest
      | none => jobAidBuild includedVal rest
    | none => jobAidBuild includedVal rest

/-- `extractJobAids` (helpers.js lines 610-639). -/
def extractJobAids (doc : Json) : JsM (List JobAidR) := do
  let dO ← jsSel doc "data"
  let rels ← jsSelO dO "relationships"
  let suppO := chainGet rels "supplementaryLOs"
  let dataO := chainGet suppO "data"
  if truthyO dataO then
    match dataO with
    | some (.arr items) => do
      let filtered ← jobAidFilter (includedValue doc) items
      jobAidBuild (includedValue doc) filtered
    | _ => .error "TypeError"
  else return []

/-- `processCourseData` (helpers.js lines 437-492). The `Math.random`
draws behind the mock module-completion statuses are passed in as the
boolean stream `coin`, and the `new Date().toISOString()` timestamp as
`nowIso`; everything else is a pure function of the document and ids. The
`courseData.type` access throws when the document has no (or a null) `data`
member. -/
def processCourseData (doc courseId instanceId : Json) (coin : Nat → Bool)
    (nowIso : String) : JsM CourseRecord := do
  let dO ← jsSel doc "data"
  let ty ← jsSelO dO "type"
  let dv := dO.getD .null
  let courseType :=
    if jsStrictEqO ty (some (.str "learningProgram")) then "Learning Program" else "Course"
  let courseTitle := safeGet dv "attributes.localizedMetadata.0.name" (.str "Untitled Course")
  let courseDescription :=
    safeGet dv "attributes.localizedMetadata.0.description" (.str "No description available")
  let courseOverview :=
    safeGet dv "attributes.localizedMetadata.0.overview" (.str "No overview available")
  let durationSeconds := safeGet dv "attributes.duration" (.num 0)
  let courseDuration := formatDuration durationSeconds
  let skillArray ← extractSkills doc
  let courseLevel0 := safeGet dv "attributes.skillLevel" (.str "N/A")
  let courseLevel ←
    if jsIsStr courseLevel0 "N/A" && !skillArray.isEmpty then do
      let firstSkill ← (match jsGetO doc "included" with
        | none => Except.ok (none : Option Json)
        | some .null => Except.ok none
        | some (.arr xs) => jsFindListM (fun item => do
            let t ← jsSel item "type"
            return jsStrictEqO t (some (.str "skillLevel"))) xs
        | some _ => Except.error "TypeError")
      match firstSkill with
      | some fs => do
        let attrsO ← jsSel fs "attributes"
        pure (jsOrO (jsOptChain attrsO "name") (.str "N/A"))
      | none => pure courseLevel0
    else pure courseLevel0
  let coreModules ← extractCoreModules doc coin
  let prerequisites ← extractPrerequisites doc
  let jobAids ← extractJobAids doc
  let skillsJoined := jsJoinO ", " skillArray
  return {
    courseId := courseId
    instanceId := instanceId
    courseTitle := courseTitle
    courseDescription := jsOr courseDescription (.str "No description available")
    courseOverview := jsOr courseOverview (.str "No overview available")
    courseType := courseType
    courseDuration := courseDuration
    courseLevel := courseLevel
    courseSkills := if skillsJoined = "" then "No skills specified" else skillsJoined
    enrollmentCount := safeGet dv "attributes.enrollmentCount" (.num 0)
    ratingAvg := safeGet dv "attributes.rating.averageRating" (.num 0)
    ratingCount := safeGet dv "attributes.rating.ratingsCount" (.num 0)
    imageUrl := safeGet dv "attributes.imageUrl" (.str "")
    loFormat := safeGet dv "attributes.loFormat" (.str "Self-paced")
    coreModules := coreModules
    prerequisites := prerequisites
    jobAids := jobAids
    timestamp := nowIso }

/-! ### Auxiliary definitions for the determinism and job-aid claims -/

/-- The fields of a module entry that do not come from the mock
`Math.random` completion status. -/
structure ModuleStripped where
  id : Option Json
  courseId : Option Json
  name : Option Json
  type : String
  contentType : Json
  duration : String

/-- Projection of a module entry onto its non-random fields. -/
def stripModule (m : ModuleR) : ModuleStripped :=
  { id := m.id, courseId := m.courseId, name := m.name, type := m.type,
    contentType := m.contentType, duration := m.duration }

/-- The fields of the flat course record that do not come from the mock
completion statuses or the clock. -/
structure RecordStripped where
  courseId : Json
  instanceId : Json
  courseTitle : Json
  courseDescription : Json
  courseOverview : Json
  courseType : String
  courseDuration : String
  courseLevel : Json
  courseSkills : String
  enrollmentCount : Json
  ratingAvg : Json
  ratingCount : Json
  imageUrl : Json
  loFormat : Json
  coreModules : List ModuleStripped
  prerequisites : List PrereqR
  jobAids : List JobAidR

/-- Projection of the flat record onto the fields that are functions of the
document and ids alone. -/
def stripRecord (r : CourseRecord) : RecordStripped :=
  { courseId := r.courseId, instanceId := r.instanceId,
    courseTitle := r.courseTitle, courseDescription := r.courseDescription,
    courseOverview := r.courseOverview, courseType := r.courseType,
    courseDuration := r.courseDuration, courseLevel := r.courseLevel,
    courseSkills := r.courseSkills, enrollmentCount := r.enrollmentCount,
    ratingAvg := r.ratingAvg, ratingCount := r.ratingCount,
    imageUrl := r.imageUrl, loFormat := r.loFormat,
    coreModules := r.coreModules.map stripModule,
    prerequisites := r.prerequisites, jobAids := r.jobAids }

/-- The mock completion statuses of a normalisation outcome. -/
def statusesOf (e : JsM CourseRecord) : List String :=
  match e with
  | .ok r => r.coreModules.map (fun m => m.status)
  | .error _ => []

/-- A one-module course document on which the mock completion status is
observable. -/
def oneModuleDoc : Json :=
  .obj [("data", .obj [("id", .str "c1"), ("type", .str "course"),
          ("relationships", .obj [("instances", .obj [("data",
            .arr [.obj [("id", .str "i1")]])])])]),
        ("included", .arr [
          .obj [("id", .str "i1"), ("type", .str "learningObjectInstance"),
            ("relationships", .obj [("loResources", .obj [("data",
              .arr [.obj [("id", .str "r1")]])])])],
          .obj [("id", .str "r1"),
            ("attributes", .obj [("name", .str "Mod")])]])]

/-- First match by id in an included list (a pure rendering of
`included.find(item => item.id === target)`). -/
def findById (included : List Json) (target : Option Json) : Option Json :=
  included.find? (fun item => jsStrictEqO (jsGetO item "id") target)

/-- Whether an included record has truthy attributes of loType `jobAid`. -/
def isJobAidRecord (rec : Json) : Bool :=
  match jsGetO rec "attributes" with
  | some attrs => truthy attrs && jsStrictEqO (jsGetO attrs "loType") (some (.str "jobAid"))
  | none => false

/-- The entry built for a kept supplementary learning object. -/
def jobAidEntry (included : List Json) (item : Json) : JobAidR :=
  match findById included (jsGetO item "id") with
  | some rec =>
    let attrs := (jsGetO rec "attributes").getD .null
    { id := jsGetO item "id", name := metaNameOf attrs "Job Aid",
      description := metaDescOf attrs }
  | none => { id := jsGetO item "id", name := none, description := .str "" }

/-- Declarative formulation of the job-aid extraction: keep, in document
order, exactly the supplementary learning objects whose included record has
truthy attributes with loType `jobAid`, and build one entry per kept
occurrence. -/
def jobAidsSpec (included : List Json) (items : List Json) : List JobAidR :=
  (items.filter (fun item =>
    match findById included (jsGetO item "id") with
    | some rec => isJobAidRecord rec
    | none => false)).map (jobAidEntry included)

/-- A course document with one supplementary learning object of loType
`jobAid` whose record has no localized metadata but a truthy
`attributes.name`. -/
def jobAidNameDoc : Json :=
  .obj [("data", .obj [("id", .str "c2"), ("type", .str "course"),
          ("relationships", .obj [("supplementaryLOs", .obj [("data",
            .arr [.obj [("id", .str "s1")]])])])]),
        ("included", .arr [
          .obj [("id", .str "s1"),
            ("attributes", .obj [("loType", .str "jobAid"),
              ("name", .str "Custom Name")])]])]

/-! ### HTML assembler (generateCourseHTML, helpers.js lines 660-804) -/

/-- `escapeHtml` applied to a value known to be a string (the String-typed
record fields). -/
def escS (s : String) : String := escapeHtmlStr s

/-- `xs.map(f).join(EMPTY)`: concatenation of rendered pieces in order. -/
def strJoin : List String → String
  | [] => ""
  | s :: rest => s ++ strJoin rest

/-- One prerequisite item of the prerequisites template (helpers.js lines
674-679). -/
def prereqItemHTML (p : PrereqR) : String :=
  "\n          <div class=\"prerequisite-item\">\n            <span class=\"prerequisite-type\">Course: "
    ++ esc p.type
    ++ "</span>\n            <a href=\"#\" class=\"prerequisite-link\">"
    ++ escO p.name
    ++ "</a>\n          </div>\n        "

/-- The prerequisites section (helpers.js lines 670-682), rendered only when
there is at least one prerequisite. -/
def prerequisitesHTML (c : CourseRecord) : String :=
  if c.prerequisites.length > 0 then
    "\n    <div class=\"course-section prerequisites-section\">\n      <h2 class=\"section-title\">Course Prerequisites <span class=\"optional-label\">(Optional)</span></h2>\n      <div class=\"prerequisites-content\">\n        "
      ++ strJoin (c.prerequisites.map prereqItemHTML)
      ++ "\n      </div>\n    </div>\n  "
  else ""

/-- One module item of the modules template (helpers.js lines 698-714); the
status class and status icon are interpolated raw, everything else through
`escapeHtml`. -/
def moduleItemHTML (c : CourseRecord) (m : ModuleR) : String :=
  "\n              <div class=\"module-item "
    ++ m.status
    ++ "\" data-resource-id=\""
    ++ escO m.id
    ++ "\" data-course-id=\""
    ++ esc c.courseId
    ++ "\">\n                <div class=\"module-icon\">‚≠ê</div>\n                <div class=\"module-content\">\n                  <div class=\"module-header\">\n                    <span class=\"module-type\">"
    ++ escS m.type
    ++ ": "
    ++ esc m.contentType
    ++ "</span>\n                  </div>\n                  <div class=\"module-title\">\n                    <a href=\"#\" class=\"module-link\">"
    ++ escO m.name
    ++ "</a>\n                  </div>\n                  <div class=\"module-meta\">\n                    <span class=\"module-duration\">‚è±Ô∏è "
    ++ escS m.duration
    ++ "</span>\n                    <span class=\"module-status\">"
    ++ m.statusIcon
    ++ " "
    ++ escS m.statusText
    ++ "</span>\n                  </div>\n                </div>\n              </div>\n            "

/-- The modules section (helpers.js lines 685-719). -/
def modulesHTML (c : CourseRecord) : String :=
  "\n    <div class=\"course-section modules-section\">\n      <div class=\"section-tabs\">\n        <button class=\"tab-button active\">Modules</button>\n        <button class=\"tab-button\">Notes</button>\n      </div>\n      <div class=\"modules-content\">\n        <div class=\"core-content-section\">\n          <h3 class=\"content-title\">\n            Core content \n            <span class=\"duration-badge\">‚è±Ô∏è "
    ++ escS c.courseDuration
    ++ " (estimated)</span>\n          </h3>\n          <div class=\"modules-list\">\n            "
    ++ strJoin (c.coreModules.map (moduleItemHTML c))
    ++ "\n          </div>\n        </div>\n      </div>\n    </div>\n  "

/-- One job-aid item (helpers.js lines 726-731). -/
def jobAidItemHTML (j : JobAidR) : String :=
  "\n          <div class=\"job-aid-item\">\n            <a href=\"#\" class=\"job-aid-link\">"
    ++ escO j.name
    ++ "</a>\n            <p class=\"job-aid-description\">"
    ++ esc j.description
    ++ "</p>\n          </div>\n        "

/-- The job-aids sidebar section (helpers.js lines 722-734). -/
def jobAidsHTML (c : CourseRecord) : String :=
  if c.jobAids.length > 0 then
    "\n    <div class=\"sidebar-section job-aids-section\">\n      <h3 class=\"sidebar-title\">üîß Job aids</h3>\n      <div class=\"job-aids-list\">\n        "
      ++ strJoin (c.jobAids.map jobAidItemHTML)
      ++ "\n      </div>\n    </div>\n  "
  else ""

/-- `courseData.imageUrl || unsplash-default` (helpers.js line 663). -/
def imageUrlOf (c : CourseRecord) : Json :=
  jsOr c.imageUrl (.str "https://images.unsplash.com/photo-1516321318423-f06f85e504b3?w=1200&q=80")

/-- `generateCourseHTML` (helpers.js lines 660-804): the full document, with
the template literal transcribed byte for byte; interpolations marked
`escapeHtml` in the source go through `esc`/`escO`/`escS`, the remaining
interpolations (timestamp, course-rating, course-enrollment-count, the
module status class and icon, and the progress counters) are raw. -/
def generateCourseHTML (c : CourseRecord) : String :=
  "<head>\n  <meta charset=\"utf-8\">\n  <title>"
    ++ esc c.courseTitle
    ++ " - Course Viewer</title>\n  <meta name=\"description\" content=\""
    ++ esc c.courseDescription
    ++ "\">\n  <meta name=\"author\" content=\"ALM Course Viewer\">\n  <meta name=\"timestamp\" content=\""
    ++ c.timestamp
    ++ "\">\n  \n  <!-- Course Meta Tags for EDS Indexing -->\n  <meta name=\"course-id\" content=\""
    ++ esc c.courseId
    ++ "\">\n  <meta name=\"course-title\" content=\""
    ++ esc c.courseTitle
    ++ "\">\n  <meta name=\"course-duration\" content=\""
    ++ escS c.courseDuration
    ++ "\">\n  <meta name=\"course-skill-level\" content=\""
    ++ esc c.courseLevel
    ++ "\">\n  <meta name=\"course-skills\" content=\""
    ++ escS c.courseSkills
    ++ "\">\n  <meta name=\"course-type\" content=\""
    ++ escS c.courseType
    ++ "\">\n  <meta name=\"course-rating\" content=\""
    ++ jsToString c.ratingAvg
    ++ "\">\n  <meta name=\"course-enrollment-count\" content=\""
    ++ jsToString c.enrollmentCount
    ++ "\">\n\n  <!-- Open Graph Meta Tags -->\n  <meta property=\"og:type\" content=\"website\">\n  <meta property=\"og:title\" content=\""
    ++ esc c.courseTitle
    ++ " - Course Viewer\">\n  <meta property=\"og:description\" content=\""
    ++ esc c.courseDescription
    ++ "\">\n  <meta property=\"og:image\" content=\""
    ++ esc (imageUrlOf c)
    ++ "\">\n</head>\n\n<body>\n  <header></header>\n  <main>\n    <div>\n      <div class=\"course-overview\">\n        <!-- Course Header -->\n        <div class=\"course-header\">\n          <div class=\"course-hero\">\n            <h1 class=\"course-title\">"
    ++ esc c.courseTitle
    ++ "</h1>\n            <div class=\"course-format\">"
    ++ esc c.loFormat
    ++ "</div>\n          </div>\n        </div>\n        \n        <!-- Main Content -->\n        <div class=\"course-main-content\">\n          <!-- Left Content -->\n          <div class=\"course-left-content\">\n            "
    ++ prerequisitesHTML c
    ++ "\n            "
    ++ modulesHTML c
    ++ "\n          </div>\n          \n          <!-- Sidebar -->\n          <div class=\"course-sidebar\">\n            <div class=\"sidebar-actions\">\n              <button class=\"continue-btn\">Continue</button>\n            </div>\n            \n            <div class=\"sidebar-section progress-section\">\n              <div class=\"progress-item\">\n                <span class=\"progress-count\">"
    ++ toString (c.coreModules.filter (fun m => m.isCompleted)).length
    ++ "/"
    ++ toString c.coreModules.length
    ++ "</span>\n                <span class=\"progress-label\">Core content completed</span>\n              </div>\n            </div>\n            \n            "
    ++ jobAidsHTML c
    ++ "\n          </div>\n        </div>\n      </div>\n    </div>\n  </main>\n  <footer></footer>\n</body>\n\n</html>"

/-! ### Client-side decorator (course-info.js lines 11-22) -/

/-- The opening text of the meta tag carrying `name` in the generated
document shape (tag name, name attribute, start of the content
attribute). -/
def metaPat (nm : String) : List Char :=
  ("meta name=\"" ++ nm ++ "\" content=\"").data

/-- First occurrence scan: the characters following the first occurrence of
`p` in the list, if any. -/
def findAfter (p : List Char) : List Char → Option (List Char)
  | [] => none
  | ch :: cs =>
    if p.isPrefixOf (ch :: cs) then some ((ch :: cs).drop p.length)
    else findAfter p cs

/-- `document.querySelector('meta[name=NM]')?.content` on the generated
document: the browser parses a tag at each `<` (every interpolation that
could carry text is escaped, so no text position opens a tag), and the
generated meta tags all have the rigid shape `<meta name=".." content="..">`;
the first meta tag with the requested name is therefore the first occurrence
of its opening text, and its content attribute runs to the next double
quote. -/
def metaContent (html : String) (nm : String) : Option String :=
  (findAfter ('<' :: metaPat nm) html.data).map
    (fun rest => String.mk (rest.takeWhile (fun ch => ch ≠ '"')))

/-- Checker that no position inside a literal can start a match of `p`,
whatever follows the literal: at every suffix the pattern disagrees within
the available characters. -/
def cleanFor (p : List Char) : List Char → Bool
  | [] => true
  | ch :: cs =>
    (p.take (min p.length (ch :: cs).length) != (ch :: cs).take (min p.length (ch :: cs).length))
      && cleanFor p cs

/-- The record assembled by `getCourseDataFromMeta` (course-info.js lines
11-22). -/
structure CourseMeta where
  courseId : String
  courseTitle : String
  courseDuration : String
  courseSkillLevel : String
  courseSkills : String
  courseDescription : String

/-- `getCourseDataFromMeta` (course-info.js lines 11-22): each field is the
content of the first matching meta tag, defaulting to the empty string. -/
def getCourseDataFromMeta (html : String) : CourseMeta :=
  { courseId := (metaContent html "course-id").getD ""
    courseTitle := (metaContent html "course-title").getD ""
    courseDuration := (metaContent html "course-duration").getD ""
    courseSkillLevel := (metaContent html "course-skill-level").getD ""
    courseSkills := (metaContent html "course-skills").getD ""
    courseDescription := (metaContent html "description").getD "" }


/-- The suffix of the generated document from the course-type meta tag
onward (everything after the course-skills content attribute). -/
def metaHeadTail (c : CourseRecord) : String :=
  "\">\n  <meta name=\"course-type\" content=\""
    ++ escS c.courseType
    ++ "\">\n  <meta name=\"course-rating\" content=\""
    ++ jsToString c.ratingAvg
    ++ "\">\n  <meta name=\"course-enrollment-count\" content=\""
    ++ jsToString c.enrollmentCount
    ++ "\">\n\n  <!-- Open Graph Meta Tags -->\n  <meta property=\"og:type\" content=\"website\">\n  <meta property=\"og:title\" content=\""
    ++ esc c.courseTitle
    ++ " - Course Viewer\">\n  <meta property=\"og:description\" content=\""
    ++ esc c.courseDescription
    ++ "\">\n  <meta property=\"og:image\" content=\""
    ++ esc (imageUrlOf c)
    ++ "\">\n</head>\n\n<body>\n  <header></header>\n  <main>\n    <div>\n      <div class=\"course-overview\">\n        <!-- Course Header -->\n        <div class=\"course-header\">\n          <div class=\"course-hero\">\n            <h1 class=\"course-title\">"
    ++ esc c.courseTitle
    ++ "</h1>\n            <div class=\"course-format\">"
    ++ esc c.loFormat
    ++ "</div>\n          </div>\n        </div>\n        \n        <!-- Main Content -->\n        <div class=\"course-main-content\">\n          <!-- Left Content -->\n          <div class=\"course-left-content\">\n            "
    ++ prerequisitesHTML c
    ++ "\n            "
    ++ modulesHTML c
    ++ "\n          </div>\n          \n          <!-- Sidebar -->\n          <div class=\"course-sidebar\">\n            <div class=\"sidebar-actions\">\n              <button class=\"continue-btn\">Continue</button>\n            </div>\n            \n            <div class=\"sidebar-section progress-section\">\n              <div class=\"progress-item\">\n                <span class=\"progress-count\">"
    ++ toString (c.coreModules.filter (fun m => m.isCompleted)).length
    ++ "/"
    ++ toString c.coreModules.length
    ++ "</span>\n                <span class=\"progress-label\">Core content completed</span>\n              </div>\n            </div>\n            \n            "
    ++ jobAidsHTML c
    ++ "\n          </div>\n        </div>\n      </div>\n    </div>\n  </main>\n  <footer></footer>\n</body>\n\n</html>"


/-- A concrete record exercising the meta round trip. -/
def c6rec : CourseRecord :=
  { courseId := Json.str "C100"
    instanceId := Json.null
    courseTitle := Json.str "Intro"
    courseDescription := Json.str "Basics"
    courseOverview := Json.null
    courseType := "Self Paced"
    courseDuration := "2h 5m"
    courseLevel := Json.str "Beginner"
    courseSkills := "JS"
    enrollmentCount := Json.num 3
    ratingAvg := Json.num 4
    ratingCount := Json.num 1
    imageUrl := Json.null
    loFormat := Json.str "Self Paced"
    coreModules := []
    prerequisites := []
    jobAids := []
    timestamp := "2024-01-01T00:00:00.000Z" }

/-- A record with a string image URL, exercising every escaped position. -/
def c1rec : CourseRecord := { c6rec with imageUrl := Json.str "https://img" }

/-! ### Escaping observables for the HTML-injection claim -/

/-- Number of occurrences of a character in a string. -/
def countIn (s : String) (ch : Char) : Nat := s.data.count ch

/-- The four characters whose raw presence in markup can change the
document structure of an attribute-quoted template. -/
def specialFour (ch : Char) : Prop := ch = '<' ∨ ch = '>' ∨ ch = '"' ∨ ch = '\''

/-- Absence of all five HTML-special characters from a string. -/
def noSpecialsB (s : String) : Bool :=
  s.data.all (fun ch => ch ≠ '&' && ch ≠ '<' && ch ≠ '>' && ch ≠ '"' && ch ≠ '\'')

/-- The entity tails `escapeHtml` can produce after an ampersand. -/
def entityTails : List (List Char) :=
  ["amp;".data, "lt;".data, "gt;".data, "quot;".data, "#039;".data]

/-- Every ampersand in the character list starts one of the five escape
entities. -/
def ampOkB : List Char → Bool
  | [] => true
  | ch :: rest =>
    (if ch = '&' then entityTails.any (fun t => t.isPrefixOf rest) else true) && ampOkB rest

/-- A possibly-`undefined` value that is either absent or a string. -/
def strOrUndef (x : Option Json) : Prop := x = none ∨ ∃ s, x = some (Json.str s)

/-- The record fields interpolated into the HTML are strings (escaped
positions) or free of special characters (raw positions). -/
def TextFields (c : CourseRecord) : Prop :=
  (∃ s, c.courseId = Json.str s) ∧
  (∃ s, c.courseTitle = Json.str s) ∧
  (∃ s, c.courseDescription = Json.str s) ∧
  (∃ s, c.courseLevel = Json.str s) ∧
  (∃ s, c.loFormat = Json.str s) ∧
  (∃ s, c.imageUrl = Json.str s) ∧
  noSpecialsB (jsToString c.ratingAvg) = true ∧
  noSpecialsB (jsToString c.enrollmentCount) = true ∧
  noSpecialsB c.timestamp = true ∧
  (∀ m ∈ c.coreModules, strOrUndef m.id ∧ strOrUndef m.name ∧
    (∃ s, m.contentType = Json.str s) ∧
    noSpecialsB m.status = true ∧ noSpecialsB m.statusIcon = true) ∧
  (∀ p ∈ c.prerequisites, strOrUndef p.name ∧ ∃ s, p.type = Json.str s) ∧
  (∀ j ∈ c.jobAids, strOrUndef j.name ∧ ∃ s, j.description = Json.str s)

/-- Blanking of the module text fields, keeping the raw status fields and
the completion flag. -/
def scrubModule (m : ModuleR) : ModuleR :=
  { id := some (.str ""), courseId := m.courseId, name := some (.str ""),
    type := "", contentType := .str "", duration := "", status := m.status,
    isCompleted := m.isCompleted, statusText := "", statusIcon := m.statusIcon }

/-- Blanking of the prerequisite text fields. -/
def scrubPrereq (p : PrereqR) : PrereqR :=
  { id := p.id, name := some (.str ""), type := .str "" }

/-- Blanking of the job-aid text fields. -/
def scrubJobAid (j : JobAidR) : JobAidR :=
  { id := j.id, name := some (.str ""), description := .str "" }

/-- Blanking of every text field of the record while keeping the list
lengths, completion flags and raw status fields: the HTML of the scrubbed
record carries only template-structural markup characters. -/
def scrubRecord (c : CourseRecord) : CourseRecord :=
  { courseId := .str "", instanceId := c.instanceId, courseTitle := .str "",
    courseDescription := .str "", courseOverview := c.courseOverview,
    courseType := "", courseDuration := "", courseLevel := .str "",
    courseSkills := "", enrollmentCount := .str "", ratingAvg := .str "",
    ratingCount := c.ratingCount, imageUrl := .str "", loFormat := .str "",
    coreModules := c.coreModules.map scrubModule,
    prerequisites := c.prerequisites.map scrubPrereq,
    jobAids := c.jobAids.map scrubJobAid, timestamp := "" }


/-! ### The action entry point (helpers.js lines 176-371) -/

/-- An OpenWhisk web-action response as this action builds them. -/
structure Response where
  statusCode : Int
  body : String
  headers : List (String × String)
deriving DecidableEq

/-- Modelled from the spec: the shared `errorResponse` helper is required
from `../../utils`, which is not part of this repository's sources; the
spec only constrains the status code and message of error replies, so the
helper is modelled as the response carrying exactly that status code and
message. -/
def errorResponse (code : Int) (msg : String) : Response :=
  { statusCode := code
    body := msg
    headers := [] }

/-- `Array.isArray(v)` for a possibly-`undefined` value. -/
def jsIsArrayO : Option Json → Bool
  | some (.arr _) => true
  | _ => false

/-- `typeof v === 'object'` for a defined value. -/
def typeofObject : Json → Bool
  | .null => true
  | .arr _ => true
  | .obj _ => true
  | _ => false

/-- The `x.length > 0` comparison on a length value this code reads: array
and string lengths are numbers; an object can only reach the comparison
through an own `length` property, and a non-numeric one compares false here
(as `NaN > 0` does; a numeral-string length property would coerce in
JavaScript, a corner no payload shape of this action produces). -/
def jsGtZeroO : Option Json → Bool
  | some (.num n) => decide (0 < n)
  | _ => false

/-- The test-connection JSON body (helpers.js lines 194-198):
`JSON.stringify` of the status/message/timestamp object, in insertion
order. -/
def testConnectionBody (nowIso : String) : String :=
  "\x7b\"status\":\"success\",\"message\":\"Webhook endpoint is working correctly\",\"timestamp\":\"" ++ nowIso ++ "\"\x7d"

/-- The test-connection success response (helpers.js lines 192-204). -/
def testConnectionResponse (nowIso : String) : Response :=
  { statusCode := 200
    body := testConnectionBody nowIso
    headers := [("Content-Type", "application/json")] }

/-- Format 4 of the webhook payload sniffing (helpers.js lines 230-238):
the first own property value that is a truthy object with a truthy array
`events` property, in insertion order. -/
def format4Find : List (String × Json) → Option Json
  | [] => none
  | (_, v) :: rest =>
    if truthy v && typeofObject v && truthyO (jsGetO v "events")
        && jsIsArrayO (jsGetO v "events") then some v
    else format4Find rest

/-- Formats 1-4 of the webhook payload sniffing (helpers.js lines 206-238),
an else-if chain: a direct truthy non-empty `events` array selects `params`
itself; otherwise a string `body` is parsed (`JSON.parse` and the `events`
access run in a try whose catch only logs, so a parse failure or a `null`
parse result selects nothing and ends the chain); otherwise a truthy object
`body` with truthy `events` is selected; otherwise the first property value
that looks like webhook data is selected. `parseJson` is the `JSON.parse`
oracle, `none` meaning the parse threw. -/
def webhookData14 (parseJson : String → Option Json) (params : Json) : Option Json :=
  let ev := jsGetO params "events"
  if truthyO ev && jsIsArrayO ev && jsGtZeroO (jsOptChain ev "length") then some params
  else
    let bd := jsGetO params "body"
    match bd with
    | some (.str s) =>
      if truthy (.str s) then
        match parseJson s with
        | none => none
        | some .null => none
        | some parsed =>
          if truthyO (jsGetO parsed "events") && jsIsArrayO (jsGetO parsed "events") then
            some parsed
          else none
      else
        match params with
        | .obj fs => format4Find fs
        | _ => none
    | _ =>
      if truthyO bd && (match bd with | some v => typeofObject v | none => false)
          && truthyO (jsOptChain bd "events") then bd
      else
        match params with
        | .obj fs => format4Find fs
        | _ => none

/-- Format 5 (helpers.js lines 240-264): reconstruction from individual
parameters when nothing was selected and `params.accountId` is truthy. -/
def webhookData5 (nowIso : String) (params : Json) : Option Json :=
  if truthyO (jsGetO params "accountId") then
    if truthyO (jsGetO params "eventId") && truthyO (jsGetO params "eventName")
        && truthyO (jsGetO params "loId") then
      some (.obj
        [("accountId", (jsGetO params "accountId").getD .null),
         ("events", .arr [.obj
           [("eventId", (jsGetO params "eventId").getD .null),
            ("eventName", (jsGetO params "eventName").getD .null),
            ("timestamp", jsOrO (jsGetO params "timestamp") (.str nowIso)),
            ("eventInfo", jsOrO (jsGetO params "eventInfo") (.str "")),
            ("data", .obj
              [("loId", (jsGetO params "loId").getD .null),
               ("loType", jsOrO (jsGetO params "loType") (.str "course"))])]])])
    else none
  else none

/-- The selected webhook payload, if any (helpers.js lines 206-264). -/
def webhookDataOf (parseJson : String → Option Json) (nowIso : String)
    (params : Json) : Option Json :=
  match webhookData14 parseJson params with
  | some w => some w
  | none => webhookData5 nowIso params

/-- The guard of the webhook-processing branch (helpers.js line 266):
`webhookData && webhookData.events && webhookData.events.length > 0`. -/
def webhookUsable (wd : Option Json) : Bool :=
  match wd with
  | none => false
  | some w =>
    truthyO (jsGetO w "events") && jsGtZeroO (jsOptChain (jsGetO w "events") "length")

/-- `pre` is a prefix of `s` (`String.prototype.startsWith`). -/
def strStartsWith (s pre : String) : Bool := pre.data.isPrefixOf s.data

/-- `pat` occurs in the list (`String.prototype.includes`). -/
def hasInfix (pat : List Char) : List Char → Bool
  | [] => pat.isEmpty
  | c :: rest => pat.isPrefixOf (c :: rest) || hasInfix pat rest

/-- The webhook-event processing (helpers.js lines 266-293): reads the first
event, requires truthy `event.data` and `event.data.loId`, splits the
`loId` on `:` (a member access that throws on `null`/`undefined` and a
method only strings carry), and yields either an early error response or
the extracted course id together with the instance id (`null` when the
event carries none). -/
def processWebhook (w : Json) : JsM (Sum Response (Option String × Json)) := do
  let evs := jsGetO w "events"
  let ev0 := jsOptChain evs "0"
  let dta ← jsSelO ev0 "data"
  if truthyO dta then do
    let loId ← jsSelO dta "loId"
    if truthyO loId then do
      let loIdStr ← (match loId with
        | some (.str s) => pure s
        | _ => Except.error "TypeError")
      let loIdParts := jsSplit loIdStr ':'
      if loIdParts.length = 2 then do
        let cid := loIdParts.getD 1 ""
        let inst ← jsSelO dta "instanceId"
        if truthyO inst then
          pure (.inr (some cid, inst.getD .null))
        else
          pure (.inr (some cid, .null))
      else
        pure (.inl (errorResponse 400 ("Invalid loId format: " ++ loIdStr)))
    else
      pure (.inl (errorResponse 400 "Missing loId in event data"))
  else
    pure (.inl (errorResponse 400 "Missing loId in event data"))

/-- The URL-path fallback (helpers.js lines 295-324): `params.__ow_path` is
normalised to start with `/` (a `startsWith` call that throws on
non-strings), a path without `/overview/trainingId/` is answered 404, and
the course and instance ids are read from the slash-separated positions
when the shape matches; otherwise the course id stays `null`. -/
def processPath (pw : Option Json) : JsM (Sum Response (Option String × Json)) := do
  let pstr ← (match pw with
    | some (.str s) => pure s
    | _ => Except.error "TypeError")
  let path := if strStartsWith pstr "/" then pstr else "/" ++ pstr
  if hasInfix "/overview/trainingId/".data path.data then
    let pathParts := (jsSplit path '/').filter (fun part => part.length > 0)
    if 3 ≤ pathParts.length && pathParts.getD 0 "" == "overview"
        && pathParts.getD 1 "" == "trainingId" then
      let cid := pathParts.getD 2 ""
      if 5 ≤ pathParts.length && pathParts.getD 3 "" == "trainingInstanceId" then
        pure (.inr (some cid, .str (pathParts.getD 4 "")))
      else
        pure (.inr (some cid, .null))
    else
      pure (.inr (none, .null))
  else
    pure (.inl (errorResponse 404 (path ++ " is not a course overlay path")))

/-- The 200 HTML response head (helpers.js lines 344-353). -/
def htmlResponse (html : String) : Response :=
  { statusCode := 200
    body := html
    headers :=
      [("Content-Type", "text/html"),
       ("Cache-Control", "no-cache, no-store, must-revalidate"),
       ("Pragma", "no-cache"),
       ("Expires", "0")] }

/-- The continuation of `main` once routing produced either an early
response or the extracted ids (helpers.js lines 326-365): a falsy course id
is answered 400, a falsy `fetchCourseData` result 404, and otherwise the
normaliser and assembler build the 200 HTML response whose course/instance
ids are handed to the publish call. -/
def afterRoute (fetchData : Option Json) (coin : Nat → Bool) (nowIso : String) :
    Sum Response (Option String × Json) → JsM (Response × Option (String × Json))
  | .inl r => pure (r, none)
  | .inr (cid?, inst) =>
    match cid? with
    | none => pure (errorResponse 400 "Could not extract course ID from request", none)
    | some cid =>
      if cid = "" then
        pure (errorResponse 400 "Could not extract course ID from request", none)
      else if ¬ truthyO fetchData then
        pure (errorResponse 404 "Course not found", none)
      else do
        let record ← processCourseData (fetchData.getD .null) (.str cid) inst coin nowIso
        pure (htmlResponse (generateCourseHTML record), some (cid, inst))

/-- The body of `main`'s try block (helpers.js lines 178-365): the returned
pair is the response together with, for the 200 HTML case, the
courseId/instanceId pair handed to the fire-and-forget
`publishToEdsCache` call. `fetchData` is the `fetchCourseData` oracle
(`none` for the `null` that function returns on failure, it never
throws). -/
def mainTry (parseJson : String → Option Json) (nowIso : String)
    (fetchData : Option Json) (coin : Nat → Bool) (params : Json) :
    JsM (Response × Option (String × Json)) := do
  if jsStrictEqO (jsGetO params "message") (some (.str "Test Connection")) then
    pure (testConnectionResponse nowIso, none)
  else do
    let wd := webhookDataOf parseJson nowIso params
    let routed ←
      if webhookUsable wd then
        processWebhook (wd.getD .null)
      else if truthyO (jsGetO params "__ow_path") then
        processPath (jsGetO params "__ow_path")
      else
        pure (.inl (errorResponse 400 "Missing webhook payload or URL path"))
    afterRoute fetchData coin nowIso routed

/-- `main` (helpers.js lines 176-371): the whole body runs in a try whose
catch returns the 500 response, so every thrown error is converted and
nothing escapes. -/
def mainAction (parseJson : String → Option Json) (nowIso : String)
    (fetchData : Option Json) (coin : Nat → Bool) (params : Json) :
    Response × Option (String × Json) :=
  match mainTry parseJson nowIso fetchData coin params with
  | .ok rp => rp
  | .error _ => (errorResponse 500 "server error", none)


/-! ### The EDS cache publisher (helpers.js lines 809-998) -/

/-- One instance entry `fetchCourseInstances` builds (helpers.js lines
952-981). Only string ids reach the push: a non-string id makes the
`includes` call throw, which the surrounding catch turns into `[]`. -/
structure InstanceRec where
  id : String
  almId : String
  name : Json
  state : Json

/-- Replace the first occurrence of `a` by `b` (`String.prototype.replace`
with a one-character string pattern). -/
def replaceFirstAux (a b : Char) : List Char → List Char
  | [] => []
  | c :: cs => if c = a then b :: cs else c :: replaceFirstAux a b cs

/-- `s.replace(a, b)` for one-character strings. -/
def jsReplaceFirst (s : String) (a b : Char) : String :=
  String.mk (replaceFirstAux a b s.data)

/-- `s.includes(c)` for a one-character string. -/
def strContains (s : String) (c : Char) : Bool := s.data.contains c

/-- The ALM→EDS instance-id rewrite (helpers.js lines 957-962 and 974-977):
`"course:123_456"` becomes `"123-456"`; ids without both a `:` and a `_`
pass through unchanged. -/
def edsIdOf (almId : String) : String :=
  if strContains almId ':' && strContains almId '_' then
    jsReplaceFirst ((jsSplit almId ':').getD 1 "") '_' '-'
  else almId

/-- The string a member access must produce for the `includes`/`split`
calls on it to run; everything else throws. -/
def asStr (x : Option Json) : JsM String :=
  match x with
  | some (.str s) => pure s
  | some _ => Except.error "TypeError"
  | none => Except.error "TypeError"

/-- One `forEach` step over the instance references (helpers.js lines
950-981): resolve the reference in `included` (`included?.find(...)`;
a defined non-array `included` makes the `find` call throw), then push
either the resolved entry or the fallback built from the reference id. -/
def buildInstance (doc : Json) (ref : Json) : JsM InstanceRec := do
  let rid ← jsSel ref "id"
  let included := jsGetO doc "included"
  let found ←
    match included with
    | none => pure none
    | some .null => pure none
    | some (.arr items) =>
      jsFindListM (fun item => do
        let iid ← jsSel item "id"
        let ity ← jsSel item "type"
        pure (jsStrictEqO iid rid
          && jsStrictEqO ity (some (.str "learningObjectInstance")))) items
    | some _ => Except.error "TypeError"
  match found with
  | some instData =>
    if truthy instData then do
      let almId ← asStr (jsGetO instData "id")
      pure { id := edsIdOf almId
             almId := almId
             name := jsOrO (jsOptChain (jsOptChain (jsOptChain
               (jsGetO instData "attributes") "localizedMetadata") "0") "name")
               (.str "Default Instance")
             state := jsOrO (jsOptChain (jsGetO instData "attributes") "state")
               (.str "Active") }
    else do
      let almId ← asStr rid
      pure { id := edsIdOf almId
             almId := almId
             name := .str ("Instance " ++ edsIdOf almId)
             state := .str "Unknown" }
  | none => do
    let almId ← asStr rid
    pure { id := edsIdOf almId
           almId := almId
           name := .str ("Instance " ++ edsIdOf almId)
           state := .str "Unknown" }

/-- The `forEach` loop, pushing in order; a throw anywhere discards the
whole traversal (the catch returns `[]`). -/
def buildInstances (doc : Json) : List Json → JsM (List InstanceRec)
  | [] => pure []
  | ref :: rest => do
    let i ← buildInstance doc ref
    let tail ← buildInstances doc rest
    pure (i :: tail)

/-- `fetchCourseInstances` (helpers.js lines 909-998) given the JSON:API
document of the first endpoint that answered ok (`none` when both
endpoints failed, the `return []` path): reads
`data.relationships.instances.data` behind truthiness guards and maps the
references; any throw is caught and becomes `[]`. -/
def fetchCourseInstances (instDoc : Option Json) : List InstanceRec :=
  match instDoc with
  | none => []
  | some doc =>
    let run : JsM (List InstanceRec) := do
      let dta ← jsSel doc "data"
      let rel ← jsSelO dta "relationships"
      if truthyO rel then do
        let ins ← jsSelO rel "instances"
        if truthyO ins then do
          let d ← jsSelO ins "data"
          if truthyO d then
            match d with
            | some (.arr refs) => buildInstances doc refs
            | _ => Except.error "TypeError"
          else pure []
        else pure []
      else pure []
    match run with
    | .ok l => l
    | .error _ => []

/-- The admin.hlx.page preview URL for an instance path suffix (helpers.js
lines 826, 837, 860, 891). -/
def publishUrl (suffix : String) : String :=
  "https://admin.hlx.page/preview/rohitnegi02/byomeds/main/overview/trainingId/" ++ suffix

/-- The POST targets `publishToEdsCache` issues (helpers.js lines 809-904):
nothing without a truthy `EDS_AUTH_TOKEN`; exactly the one instance URL
when an instance id was given (`${instanceId}` interpolates the value);
otherwise one URL per fetched instance, or the course-level URL when no
instances were found. The POST responses only feed logging: a failed POST
is never reissued and no result value leaves the function, so the targets
do not depend on any POST outcome. -/
def publishTargets (params : Json) (instDoc : Option Json)
    (cid : String) (inst : Json) : List String :=
  if ¬ truthyO (jsGetO params "EDS_AUTH_TOKEN") then []
  else if truthy inst then
    [publishUrl (cid ++ "/trainingInstanceId/" ++ jsToString inst)]
  else
    let instances := fetchCourseInstances instDoc
    if instances.length > 0 then
      instances.map (fun i => publishUrl (cid ++ "/trainingInstanceId/" ++ i.id))
    else
      [publishUrl cid]

/-- The whole invocation: the response `main` returns together with the
POST targets of the publish call it fires after preparing the response. -/
def mainRun (parseJson : String → Option Json) (nowIso : String)
    (fetchData : Option Json) (coin : Nat → Bool) (instDoc : Option Json)
    (params : Json) : Response × List String :=
  match mainAction parseJson nowIso fetchData coin params with
  | (r, none) => (r, [])
  | (r, some (cid, inst)) => (r, publishTargets params instDoc cid inst)


/-! ### General lemmas about the embedding -/

theorem exBind_ok {α β : Type} (a : α) (f : α → JsM β) :
    ((Except.ok a : JsM α) >>= f) = f a := rfl

theorem exBind_err {α β : Type} (e : String) (f : α → JsM β) :
    ((Except.error e : JsM α) >>= f) = .error e := rfl

theorem exPure {α : Type} (a : α) : (pure a : JsM α) = .ok a := rfl

theorem exMap_ok {α β : Type} (f : α → β) (a : α) :
    Except.map f (Except.ok a : JsM α) = .ok (f a) := rfl

theorem exMap_err {α β : Type} (f : α → β) (e : String) :
    Except.map f (Except.error e : JsM α) = .error e := rfl

/-- Congruence for mapped binds whose first stage is shared. -/
theorem bindCong {α β γ : Type} (φ : β → γ) (e : JsM α) (f g : α → JsM β)
    (h : ∀ a, (f a).map φ = (g a).map φ) :
    (e >>= f).map φ = (e >>= g).map φ := by
  cases e with
  | error e => rfl
  | ok a => exact h a

/-- Congruence for mapped binds whose first stages agree up to a
projection. -/
theorem bindMapCong {α β γ δ : Type} (φ : β → γ) (ψ : α → δ)
    (e₁ e₂ : JsM α) (f₁ f₂ : α → JsM β)
    (he : e₁.map ψ = e₂.map ψ)
    (hf : ∀ a₁ a₂, ψ a₁ = ψ a₂ → (f₁ a₁).map φ = (f₂ a₂).map φ) :
    (e₁ >>= f₁).map φ = (e₂ >>= f₂).map φ := by
  cases e₁ with
  | error e =>
    cases e₂ with
    | error e' =>
      simp only [exMap_err] at he
      cases he
      rfl
    | ok a => simp [exMap_err, exMap_ok] at he
  | ok a =>
    cases e₂ with
    | error e' => simp [exMap_err, exMap_ok] at he
    | ok a' =>
      simp only [exMap_ok, Except.ok.injEq] at he
      exact hf a a' he

/-- Member access on a value known not to be null never throws. -/
theorem jsSel_ne_null (v : Json) (h : v ≠ Json.null) (k : String) :
    jsSel v k = .ok (jsGetO v k) := by
  cases v <;> first | exact absurd rfl h | rfl

/-- A reduce step over a missing member yields the default. -/
theorem safeGetStep_none {cur : Json} {k : String} (dflt : Json)
    (h : jsGetO cur k = none) : safeGetStep dflt cur k = dflt := by
  unfold safeGetStep
  by_cases ht : truthy cur <;> simp [ht, h]

/-- When the first path component is missing, `safeGet` continues the fold
over the default value. -/
theorem safeGetL_cons_none {obj : Json} {k : String} (ks : List String)
    (dflt : Json) (h : jsGetO obj k = none) :
    safeGetL obj (k :: ks) dflt = safeGetL dflt ks dflt := by
  simp [safeGetL, List.foldl_cons, safeGetStep_none dflt h]

/-- `safeGet` over a path whose first component is missing from the base
object. -/
theorem safeGet_firstKeyMissing {d : Json} (dflt : Json) (path : String)
    (k : String) (ks : List String) (hsplit : jsSplit path '.' = k :: ks)
    (h : jsGetO d k = none) :
    safeGet d path dflt = safeGetL dflt ks dflt := by
  unfold safeGet
  rw [hsplit]
  exact safeGetL_cons_none ks dflt h

/-! ### Theorems for claims C8, C9, C10 -/

/-- Claim C8, counterexample: `safeGet` does not return the default whenever
a path component is missing. With object `\x7b\x7d`, path "a.b" and default
`\x7b b: 5 \x7d`, the first component is missing, yet the reduce step then
looks the remaining component up inside the default value and returns 5
rather than the default object. -/
theorem safeGet_default_counterexample :
    safeGet (Json.obj []) "a.b" (Json.obj [("b", Json.num 5)]) = Json.num 5 ∧
      Json.num 5 ≠ Json.obj [("b", Json.num 5)] := by
  constructor
  · rfl
  · intro h
    exact Json.noConfusion h

/-- Claim C8, amended: `safeGet` returns the value stored at a path when
every component resolves through truthy intermediate values; as soon as a
step fails (missing component or falsy current value) the remaining
components are reduced over the default value, so the default itself is
returned whenever it is falsy, and in general the result of a failed lookup
is the fold of the remaining keys over the default. -/
theorem safeGet_characterisation :
    (∀ (obj : Json) (keys : List String) (dflt v : Json),
        pathLookupTruthy obj keys = some v → safeGetL obj keys dflt = v) ∧
    (∀ (obj : Json) (k : String) (ks : List String) (dflt : Json),
        (truthy obj = false ∨ jsGetO obj k = none) →
        safeGetL obj (k :: ks) dflt = safeGetL dflt ks dflt) ∧
    (∀ (obj : Json) (keys : List String) (dflt : Json),
        truthy dflt = false → keys ≠ [] →
        pathLookupTruthy obj keys = none → safeGetL obj keys dflt = dflt) := by
  refine ⟨?_, ?_, ?_⟩
  · intro obj keys
    induction keys generalizing obj with
    | nil =>
      intro dflt v h
      simp [pathLookupTruthy] at h
      simp [safeGetL, h]
    | cons k ks ih =>
      intro dflt v h
      simp only [pathLookupTruthy] at h
      by_cases ht : truthy obj
      · rw [if_pos ht] at h
        cases hg : jsGetO obj k with
        | none => rw [hg] at h; exact absurd h (by simp)
        | some w =>
          rw [hg] at h
          have := ih w dflt v h
          simpa [safeGetL, List.foldl_cons, safeGetStep, ht, hg] using this
      · rw [if_neg ht] at h
        exact absurd h (by simp)
  · intro obj k ks dflt h
    rcases h with h | h
    · simp [safeGetL, List.foldl_cons, safeGetStep, h]
    · by_cases ht : truthy obj
      · simp [safeGetL, List.foldl_cons, safeGetStep, ht, h]
      · simp [safeGetL, List.foldl_cons, safeGetStep, ht]
  · intro obj keys
    induction keys generalizing obj with
    | nil =>
      intro dflt _ hne _
      exact absurd rfl hne
    | cons k ks ih =>
      intro dflt hd _ h
      simp only [pathLookupTruthy] at h
      have hstay : ∀ ks' : List String, safeGetL dflt ks' dflt = dflt := by
        intro ks'
        induction ks' with
        | nil => simp [safeGetL]
        | cons a as iha =>
          simpa [safeGetL, List.foldl_cons, safeGetStep, hd] using iha
      by_cases ht : truthy obj
      · rw [if_pos ht] at h
        cases hg : jsGetO obj k with
        | none =>
          simp [safeGetL, List.foldl_cons, safeGetStep, ht, hg]
          exact hstay ks
        | some w =>
          rw [hg] at h
          rcases ks with _ | ⟨k2, ks2⟩
          · simp [pathLookupTruthy] at h
          · have := ih w dflt hd (by simp) h
            simpa [safeGetL, List.foldl_cons, safeGetStep, ht, hg] using this
      · simp [safeGetL, List.foldl_cons, safeGetStep, ht]
        exact hstay ks

/-- Witness for the amended C8 theorem at concrete inputs: the path
"a.b" stored in `\x7b a: \x7b b: 7 \x7d \x7d` is found, and a missing
component with the falsy default "" returns the default. -/
theorem safeGet_characterisation_witness :
    safeGetL (Json.obj [("a", Json.obj [("b", Json.num 7)])]) ["a", "b"] (Json.str "") = Json.num 7 ∧
      safeGetL (Json.obj []) ["a", "b"] (Json.str "") = Json.str "" := by
  refine ⟨safeGet_characterisation.1 _ _ _ _ rfl, ?_⟩
  exact safeGet_characterisation.2.2 _ _ _ rfl (by simp) rfl

/-- Claim C9, counterexample: at a duration of exactly 3600 seconds the
helpers-module `formatDuration` returns "1h 0m" while the course-viewer
action version returns "1h". -/
theorem formatDuration_versions_differ :
    ActionHelpers.formatDuration (Json.num 3600) = "1h 0m" ∧
      formatDuration (Json.num 3600) = "1h" ∧
      ActionHelpers.formatDuration (Json.num 3600) ≠ formatDuration (Json.num 3600) := by
  exact ⟨rfl, rfl, by decide⟩

/-- Claim C9, amended: on every integral number of seconds the two
`formatDuration` implementations agree except when the duration is a
positive whole number of hours (positive hour component, zero minute
component), where the helpers-module version renders "Hh 0m" and the
course-viewer action version renders "Hh". -/
theorem formatDuration_versions_agree_except_whole_hours (n : Int) :
    (¬(0 < Int.fdiv n 3600 ∧ Int.fdiv (Int.tmod n 3600) 60 = 0) →
      ActionHelpers.formatDuration (Json.num n) = formatDuration (Json.num n)) ∧
    ((0 < Int.fdiv n 3600 ∧ Int.fdiv (Int.tmod n 3600) 60 = 0) →
      ActionHelpers.formatDuration (Json.num n) = toString (Int.fdiv n 3600) ++ "h 0m" ∧
      formatDuration (Json.num n) = toString (Int.fdiv n 3600) ++ "h" ∧
      ActionHelpers.formatDuration (Json.num n) ≠ formatDuration (Json.num n)) := by
  by_cases hz : n = 0
  · subst hz
    constructor
    · intro _; rfl
    · intro h
      have : Int.fdiv 0 3600 = 0 := rfl
      omega
  · have htr : truthy (Json.num n) = true := by simp [truthy, hz]
    constructor
    · intro h
      by_cases hh : 0 < Int.fdiv n 3600
      · have hm : Int.fdiv (Int.tmod n 3600) 60 ≠ 0 := fun hm0 => h ⟨hh, hm0⟩
        have h1 : Int.fdiv n 3600 = n / 3600 := Int.fdiv_eq_ediv n (by norm_num)
        have hn0 : 0 ≤ n := by rw [h1] at hh; omega
        have h2 : Int.tmod n 3600 = n % 3600 := Int.tmod_eq_emod hn0 (by norm_num)
        have h3 : Int.fdiv (Int.tmod n 3600) 60 = n % 3600 / 60 := by
          rw [h2]; exact Int.fdiv_eq_ediv _ (by norm_num)
        have hmpos : 0 < Int.fdiv (Int.tmod n 3600) 60 := by
          rw [h3]; rw [h3] at hm; omega
        simp [ActionHelpers.formatDuration, formatDuration, htr, jsToNumber, hh, hmpos]
      · simp [ActionHelpers.formatDuration, formatDuration, htr, jsToNumber, hh]
    · rintro ⟨hh, hm⟩
      have e1 : ActionHelpers.formatDuration (Json.num n) =
          toString (Int.fdiv n 3600) ++ "h " ++ toString (Int.fdiv (Int.tmod n 3600) 60) ++ "m" := by
        simp [ActionHelpers.formatDuration, htr, jsToNumber, hh]
      have e2 : formatDuration (Json.num n) = toString (Int.fdiv n 3600) ++ "h" := by
        simp [formatDuration, htr, jsToNumber, hh, hm]
      have assoc4 : ∀ a b c d : String, a ++ b ++ c ++ d = a ++ (b ++ (c ++ d)) := by
        intro a b c d
        rw [String.append_assoc, String.append_assoc]
      have e1' : ActionHelpers.formatDuration (Json.num n) = toString (Int.fdiv n 3600) ++ "h 0m" := by
        rw [e1, hm, assoc4]
        exact congrArg (fun z => toString (Int.fdiv n 3600) ++ z) (by decide)
      refine ⟨e1', e2, ?_⟩
      rw [e1, e2, hm]
      intro hc
      have hlen := congrArg String.length hc
      have l1 : ("h " : String).length = 2 := rfl
      have l2 : (toString (0 : Int) : String).length = 1 := rfl
      have l3 : ("m" : String).length = 1 := rfl
      have l4 : ("h" : String).length = 1 := rfl
      simp only [String.length_append, l1, l2, l3, l4] at hlen
      omega

/-- Witness for the amended C9 theorem: at 90 seconds both versions return
"1m", and 3600 seconds is in the divergence case. -/
theorem formatDuration_versions_agree_witness :
    ActionHelpers.formatDuration (Json.num 90) = formatDuration (Json.num 90) ∧
      formatDuration (Json.num 3600) = toString (Int.fdiv (3600 : Int) 3600) ++ "h" := by
  constructor
  · exact (formatDuration_versions_agree_except_whole_hours 90).1 (by decide)
  · exact ((formatDuration_versions_agree_except_whole_hours 3600).2 (by decide)).2.1

/-- Claim C10: `getAccessToken` hands out the stored token exactly when the
token entry is present and non-empty, the expiry entry is present and parses
to an integer timestamp, and the current time is more than five minutes
before that expiry; in every other storage state it returns null. -/
theorem isAuthenticated_iff (store : Storage) (now : Int) :
    isAuthenticated store now = true ↔
      ∃ t e v, store "alm_access_token" = some t ∧ t ≠ "" ∧
        store "alm_token_expiry" = some e ∧ parseIntJS e = some v ∧
        now < v - bufferTime := by
  unfold isAuthenticated
  cases htok : store "alm_access_token" with
  | none => simp
  | some t =>
    cases hexp : store "alm_token_expiry" with
    | none => simp
    | some e =>
      by_cases ht : t = ""
      · subst ht
        simp
      · by_cases he : e = ""
        · subst he
          simp [ht, parseIntJS, digitsVal]
        · cases hp : parseIntJS e with
          | none => simp [ht, he, hp]
          | some v => simp [ht, he, hp]

theorem getAccessToken_fresh_iff (store : Storage) (now : Int) (tok : String) :
    getAccessToken store now = some tok ↔
      (store "alm_access_token" = some tok ∧ tok ≠ "" ∧
        ∃ e v, store "alm_token_expiry" = some e ∧ parseIntJS e = some v ∧
          now < v - 5 * 60 * 1000) := by
  unfold getAccessToken
  by_cases ha : isAuthenticated store now = true
  · rcases (isAuthenticated_iff store now).mp ha with ⟨t, e, v, htok, htne, hexp, hp, hlt⟩
    simp only [ha, if_true]
    constructor
    · intro h
      rw [htok] at h
      have ht : t = tok := by injection h
      subst ht
      exact ⟨htok, htne, e, v, hexp, hp, by simpa [bufferTime] using hlt⟩
    · rintro ⟨htok', _, _⟩
      exact htok'
  · have ha' : isAuthenticated store now = false := by
      cases hb : isAuthenticated store now
      · rfl
      · exact absurd hb ha
    simp only [ha', if_false, Bool.false_eq_true]
    constructor
    · intro h
      exact absurd h (by simp)
    · rintro ⟨htok, hne, e, v, hexp, hp, hlt⟩
      exact absurd ((isAuthenticated_iff store now).mpr
        ⟨tok, e, v, htok, hne, hexp, hp, by simpa [bufferTime] using hlt⟩) ha

/-- Witness for C10 at a concrete storage state and clock. -/
theorem getAccessToken_fresh_iff_witness :
    getAccessToken
      (fun k => if k = "alm_access_token" then some "tok123"
                else if k = "alm_token_expiry" then some "1000000" else none)
      0 = some "tok123" := by
  refine (getAccessToken_fresh_iff _ 0 "tok123").mpr ?_
  refine ⟨rfl, by simp, "1000000", 1000000, rfl, by rfl, by norm_num⟩

/-! ### Claim C3: determinism of the normaliser -/

theorem exFunctorMap_ok {α β : Type} (f : α → β) (a : α) :
    (f <$> (Except.ok a : JsM α)) = .ok (f a) := rfl

theorem exFunctorMap_err {α β : Type} (f : α → β) (e : String) :
    (f <$> (Except.error e : JsM α)) = .error e := rfl

/-- The per-resource module loop is, after stripping the mock completion
status, independent of the random draws and of the draw index. -/
theorem coreModulesList_strip (iv : Json) (cid : Option Json)
    (c₁ c₂ : Nat → Bool) :
    ∀ (xs : List Json) (k₁ k₂ : Nat),
      (coreModulesList iv cid c₁ xs k₁).map (List.map stripModule) =
        (coreModulesList iv cid c₂ xs k₂).map (List.map stripModule) := by
  intro xs
  induction xs with
  | nil => intro k₁ k₂; rfl
  | cons resource rest ih =>
    intro k₁ k₂
    simp only [coreModulesList]
    cases hfind : jsFindM (idMatchesRes resource) iv with
    | error e => simp [hfind, exBind_err, exMap_err]
    | ok rdO =>
      simp only [hfind, exBind_ok]
      cases rdO with
      | none => exact ih k₁ k₂
      | some rd =>
        cases hattr : jsSel rd "attributes" with
        | error e => simp [hattr, exBind_err, exMap_err]
        | ok attrsO =>
          simp only [hattr, exBind_ok]
          cases attrsO with
          | none => exact ih k₁ k₂
          | some attrs =>
            by_cases htr : truthy attrs
            · simp only [htr, if_true]
              cases hmt : (match jsOrO (jsGetO attrs "loFormat") (Json.str "Self-paced") with
                | Json.str s => (Except.ok s : JsM String)
                | _ => Except.error "TypeError") with
              | error e => simp [hmt, exBind_err, exMap_err]
              | ok mt =>
                simp only [hmt, exBind_ok]
                cases hrid : jsSel resource "id" with
                | error e => simp [hrid, exBind_err, exMap_err]
                | ok rid =>
                  simp only [hrid, exBind_ok]
                  have hih := ih (k₁ + 1) (k₂ + 1)
                  cases ht1 : coreModulesList iv cid c₁ rest (k₁ + 1) with
                  | error e =>
                    rw [ht1] at hih
                    cases ht2 : coreModulesList iv cid c₂ rest (k₂ + 1) with
                    | error e2 =>
                      rw [ht2] at hih
                      simp only [exMap_err] at hih
                      cases hih
                      simp [exBind_err, exMap_err]
                    | ok l2 =>
                      rw [ht2] at hih
                      simp [exMap_err, exMap_ok] at hih
                  | ok l1 =>
                    rw [ht1] at hih
                    cases ht2 : coreModulesList iv cid c₂ rest (k₂ + 1) with
                    | error e2 =>
                      rw [ht2] at hih
                      simp [exMap_err, exMap_ok] at hih
                    | ok l2 =>
                      rw [ht2] at hih
                      simp only [exMap_ok, Except.ok.injEq] at hih
                      simp only [exBind_ok, exPure, exMap_ok, Except.ok.injEq,
                        List.map_cons]
                      rw [hih]
                      rfl
            · simp only [htr, if_false, Bool.false_eq_true]
              exact ih k₁ k₂

/-- `extractCoreModules` is, after stripping the mock completion status,
independent of the random draws. -/
theorem extractCoreModules_strip (doc : Json) (c₁ c₂ : Nat → Bool) :
    (extractCoreModules doc c₁).map (List.map stripModule) =
      (extractCoreModules doc c₂).map (List.map stripModule) := by
  simp only [extractCoreModules]
  refine bindCong _ _ _ _ (fun dO => ?_)
  refine bindCong _ _ _ _ (fun rels => ?_)
  cases chainGet (chainGet rels "instances") "data" with
  | none => rfl
  | some dataV =>
    by_cases hdv : truthy dataV
    · simp only [hdv, if_true]
      refine bindCong _ _ _ _ (fun instanceData => ?_)
      cases instanceData with
      | none => rfl
      | some inst =>
        refine bindCong _ _ _ _ (fun irels => ?_)
        cases chainGet irels "loResources" with
        | none => rfl
        | some loresV =>
          by_cases hlr : truthy loresV
          · simp only [hlr, if_true]
            cases jsGetO loresV "data" with
            | none => rfl
            | some w =>
              cases w <;> first
                | rfl
                | exact coreModulesList_strip _ _ c₁ c₂ _ 0 0
          · simp [hlr]
    · simp [hdv]

/-- Claim C3, amended: with the `Math.random` draws and the clock made
explicit inputs, `processCourseData` is deterministic in the document,
course id and instance id up to the per-module mock completion status and
the timestamp: stripping those fields, two runs with different draws and
clock readings agree on everything else, in particular on modules,
prerequisites, job aids and every scalar field. -/
theorem processCourseData_strip (doc cid iid : Json)
    (c₁ c₂ : Nat → Bool) (ts₁ ts₂ : String) :
    (processCourseData doc cid iid c₁ ts₁).map stripRecord =
      (processCourseData doc cid iid c₂ ts₂).map stripRecord := by
  simp only [processCourseData]
  refine bindCong _ _ _ _ (fun dO => ?_)
  refine bindCong _ _ _ _ (fun ty => ?_)
  refine bindCong _ _ _ _ (fun skillArray => ?_)
  have tail : ∀ y : Json,
      Except.map stripRecord (do
        let coreModules ← extractCoreModules doc c₁
        let prerequisites ← extractPrerequisites doc
        let jobAids ← extractJobAids doc
        pure { courseId := cid, instanceId := iid,
               courseTitle := safeGet (dO.getD Json.null)
                 "attributes.localizedMetadata.0.name" (Json.str "Untitled Course"),
               courseDescription := jsOr (safeGet (dO.getD Json.null)
                   "attributes.localizedMetadata.0.description"
                   (Json.str "No description available"))
                 (Json.str "No description available"),
               courseOverview := jsOr (safeGet (dO.getD Json.null)
                   "attributes.localizedMetadata.0.overview"
                   (Json.str "No overview available"))
                 (Json.str "No overview available"),
               courseType := if jsStrictEqO ty (some (Json.str "learningProgram")) = true
                 then "Learning Program" else "Course",
               courseDuration := formatDuration (safeGet (dO.getD Json.null)
                 "attributes.duration" (Json.num 0)),
               courseLevel := y,
               courseSkills := if jsJoinO ", " skillArray = ""
                 then "No skills specified" else jsJoinO ", " skillArray,
               enrollmentCount := safeGet (dO.getD Json.null)
                 "attributes.enrollmentCount" (Json.num 0),
               ratingAvg := safeGet (dO.getD Json.null)
                 "attributes.rating.averageRating" (Json.num 0),
               ratingCount := safeGet (dO.getD Json.null)
                 "attributes.rating.ratingsCount" (Json.num 0),
               imageUrl := safeGet (dO.getD Json.null)
                 "attributes.imageUrl" (Json.str ""),
               loFormat := safeGet (dO.getD Json.null)
                 "attributes.loFormat" (Json.str "Self-paced"),
               coreModules := coreModules, prerequisites := prerequisites,
               jobAids := jobAids, timestamp := ts₁ }) =
      Except.map stripRecord (do
        let coreModules ← extractCoreModules doc c₂
        let prerequisites ← extractPrerequisites doc
        let jobAids ← extractJobAids doc
        pure { courseId := cid, instanceId := iid,
               courseTitle := safeGet (dO.getD Json.null)
                 "attributes.localizedMetadata.0.name" (Json.str "Untitled Course"),
               courseDescription := jsOr (safeGet (dO.getD Json.null)
                   "attributes.localizedMetadata.0.description"
                   (Json.str "No description available"))
                 (Json.str "No description available"),
               courseOverview := jsOr (safeGet (dO.getD Json.null)
                   "attributes.localizedMetadata.0.overview"
                   (Json.str "No overview available"))
                 (Json.str "No overview available"),
               courseType := if jsStrictEqO ty (some (Json.str "learningProgram")) = true
                 then "Learning Program" else "Course",
               courseDuration := formatDuration (safeGet (dO.getD Json.null)
                 "attributes.duration" (Json.num 0)),
               courseLevel := y,
               courseSkills := if jsJoinO ", " skillArray = ""
                 then "No skills specified" else jsJoinO ", " skillArray,
               enrollmentCount := safeGet (dO.getD Json.null)
                 "attributes.enrollmentCount" (Json.num 0),
               ratingAvg := safeGet (dO.getD Json.null)
                 "attributes.rating.averageRating" (Json.num 0),
               ratingCount := safeGet (dO.getD Json.null)
                 "attributes.rating.ratingsCount" (Json.num 0),
               imageUrl := safeGet (dO.getD Json.null)
                 "attributes.imageUrl" (Json.str ""),
               loFormat := safeGet (dO.getD Json.null)
                 "attributes.loFormat" (Json.str "Self-paced"),
               coreModules := coreModules, prerequisites := prerequisites,
               jobAids := jobAids, timestamp := ts₂ }) := by
    intro y
    refine bindMapCong _ (List.map stripModule) _ _ _ _
      (extractCoreModules_strip doc c₁ c₂) (fun a₁ a₂ ha => ?_)
    refine bindCong _ _ _ _ (fun prereqs => ?_)
    refine bindCong _ _ _ _ (fun jobAids => ?_)
    simp [exPure, exMap_ok, stripRecord, ha]
  by_cases hcond : (jsIsStr (safeGet (dO.getD Json.null) "attributes.skillLevel"
      (Json.str "N/A")) "N/A" && !skillArray.isEmpty) = true
  · rw [if_pos hcond, if_pos hcond]
    refine bindCong _ _ _ _ (fun firstSkill => ?_)
    cases firstSkill with
    | some fs =>
      refine bindCong _ _ _ _ (fun attrsO => ?_)
      refine bindCong _ _ _ _ (fun y => ?_)
      exact tail y
    | none =>
      refine bindCong _ _ _ _ (fun y => ?_)
      exact tail y
  · rw [if_neg hcond, if_neg hcond]
    refine bindCong _ _ _ _ (fun y => ?_)
    exact tail y

/-- Claim C3, counterexample: on a concrete one-module document two
invocations of `processCourseData` with equal document, course id and
instance id (but different `Math.random` draws) return records with
different module statuses, so the normaliser is not a deterministic
function of the JSON:API document and ids alone. -/
theorem processCourseData_random_counterexample :
    statusesOf (processCourseData oneModuleDoc (Json.str "c1") Json.null
        (fun _ => true) "2026-01-01T00:00:00.000Z") = ["completed"] ∧
    statusesOf (processCourseData oneModuleDoc (Json.str "c1") Json.null
        (fun _ => false) "2026-01-01T00:00:00.000Z") = ["in-progress"] ∧
    processCourseData oneModuleDoc (Json.str "c1") Json.null
        (fun _ => true) "2026-01-01T00:00:00.000Z" ≠
      processCourseData oneModuleDoc (Json.str "c1") Json.null
        (fun _ => false) "2026-01-01T00:00:00.000Z" := by
  refine ⟨rfl, rfl, ?_⟩
  intro h
  have h2 := congrArg statusesOf h
  rw [(rfl : statusesOf (processCourseData oneModuleDoc (Json.str "c1") Json.null
      (fun _ => true) "2026-01-01T00:00:00.000Z") = ["completed"]),
    (rfl : statusesOf (processCourseData oneModuleDoc (Json.str "c1") Json.null
      (fun _ => false) "2026-01-01T00:00:00.000Z") = ["in-progress"])] at h2
  exact absurd h2 (by decide)

/-! ### Claim C4: defaults of the normaliser -/

theorem exBind_ok_inv {α β : Type} {e : JsM α} {f : α → JsM β} {b : β}
    (h : (e >>= f) = .ok b) : ∃ a, e = .ok a ∧ f a = .ok b := by
  cases e with
  | error msg => simp [exBind_err] at h
  | ok a => exact ⟨a, rfl, by simpa [exBind_ok] using h⟩

theorem pathFound_safeGetL (obj : Json) (keys : List String) (dflt v : Json)
    (h : pathLookupTruthy obj keys = some v) : safeGetL obj keys dflt = v := by
  induction keys generalizing obj with
  | nil =>
    simp [pathLookupTruthy] at h
    simp [safeGetL, h]
  | cons k ks ih =>
    simp only [pathLookupTruthy] at h
    by_cases ht : truthy obj
    · rw [if_pos ht] at h
      cases hg : jsGetO obj k with
      | none => rw [hg] at h; exact absurd h (by simp)
      | some w =>
        rw [hg] at h
        have := ih w h
        simpa [safeGetL, List.foldl_cons, safeGetStep, ht, hg] using this
    · rw [if_neg ht] at h
      exact absurd h (by simp)

theorem safeGetL_falsy_fold (dflt : Json) (h : truthy dflt = false) :
    ∀ ks : List String, safeGetL dflt ks dflt = dflt := by
  intro ks
  induction ks with
  | nil => simp [safeGetL]
  | cons a as iha =>
    simpa [safeGetL, List.foldl_cons, safeGetStep, h] using iha

theorem pathFail_suffix (obj : Json) (keys : List String) (dflt : Json)
    (h : pathLookupTruthy obj keys = none) :
    ∃ ks' ∈ keys.tails, safeGetL obj keys dflt = safeGetL dflt ks' dflt := by
  induction keys generalizing obj with
  | nil => simp [pathLookupTruthy] at h
  | cons k ks ih =>
    simp only [pathLookupTruthy] at h
    by_cases ht : truthy obj
    · rw [if_pos ht] at h
      cases hg : jsGetO obj k with
      | none =>
        refine ⟨ks, (List.mem_tails _ _).mpr ⟨[k], rfl⟩, ?_⟩
        simp [safeGetL, List.foldl_cons, safeGetStep, ht, hg]
      | some w =>
        rw [hg] at h
        obtain ⟨ks', hmem, heq⟩ := ih w h
        refine ⟨ks', ?_, ?_⟩
        · rw [List.tails_cons]
          exact List.mem_cons_of_mem _ hmem
        · rw [show safeGetL obj (k :: ks) dflt = safeGetL w ks dflt from by
            simp [safeGetL, List.foldl_cons, safeGetStep, ht, hg]]
          exact heq
    · refine ⟨ks, (List.mem_tails _ _).mpr ⟨[k], rfl⟩, ?_⟩
      simp [safeGetL, List.foldl_cons, safeGetStep, ht]

theorem extractSkillsList_nil (items : List Json)
    (h : ∀ item ∈ items, ∃ t, jsSel item "type" = .ok t ∧
      jsStrictEqO t (some (Json.str "skill")) = false) :
    extractSkillsList items = .ok [] := by
  induction items with
  | nil => rfl
  | cons item rest ih =>
    obtain ⟨t, ht, hf⟩ := h item (List.mem_cons_self _ _)
    have hrest := ih (fun x hx => h x (List.mem_cons_of_mem _ hx))
    simp [extractSkillsList, ht, exBind_ok, hf, hrest]

theorem extractSkills_nil (doc : Json) (hdoc : doc ≠ Json.null)
    (h : jsGetO doc "included" = none ∨
      ∃ items, jsGetO doc "included" = some (Json.arr items) ∧
        ∀ item ∈ items, ∃ t, jsSel item "type" = .ok t ∧
          jsStrictEqO t (some (Json.str "skill")) = false) :
    extractSkills doc = .ok [] := by
  rcases h with h | ⟨items, hinc, hall⟩
  · simp [extractSkills, jsSel_ne_null doc hdoc, h, exBind_ok, exPure]
  · simp [extractSkills, jsSel_ne_null doc hdoc, hinc, exBind_ok, truthy,
      extractSkillsList_nil items hall, exPure]

/-- Claim C4: the normalizer applies each documented default separately.
Whenever a run of `processCourseData` succeeds on a document whose `data`
member is `d`, then field by field: a title/description/overview path that
does not resolve yields "Untitled Course" / "No description available" /
"No overview available"; a duration that is absent or stored as 0 formats
as "N/A"; an absent skill level yields "N/A" (here under no skill entries,
so nothing can override it); a document that includes nothing, or whose
included array has no skill entries, yields courseSkills "No skills
specified"; absent enrollment count, rating average and rating count yield
0, an absent image URL "", an absent loFormat "Self-paced"; and missing
instances/prerequisiteLOs/supplementaryLOs relationship data yield empty
module, prerequisite and job-aid lists. -/
theorem processCourseData_defaults (doc d cid iid : Json) (coin : Nat → Bool)
    (ts : String) (r : CourseRecord)
    (hd : jsGetO doc "data" = some d)
    (hrun : processCourseData doc cid iid coin ts = .ok r) :
    (pathLookupTruthy d ["attributes", "localizedMetadata", "0", "name"] = none →
      r.courseTitle = .str "Untitled Course") ∧
    (pathLookupTruthy d ["attributes", "localizedMetadata", "0", "description"] = none →
      r.courseDescription = .str "No description available") ∧
    (pathLookupTruthy d ["attributes", "localizedMetadata", "0", "overview"] = none →
      r.courseOverview = .str "No overview available") ∧
    ((pathLookupTruthy d ["attributes", "duration"] = none ∨
      pathLookupTruthy d ["attributes", "duration"] = some (Json.num 0)) →
      r.courseDuration = "N/A") ∧
    (pathLookupTruthy d ["attributes", "skillLevel"] = none →
      extractSkills doc = .ok [] → r.courseLevel = .str "N/A") ∧
    ((jsGetO doc "included" = none ∨
      ∃ items, jsGetO doc "included" = some (Json.arr items) ∧
        ∀ item ∈ items, ∃ t, jsSel item "type" = .ok t ∧
          jsStrictEqO t (some (Json.str "skill")) = false) →
      r.courseSkills = "No skills specified") ∧
    (pathLookupTruthy d ["attributes", "enrollmentCount"] = none →
      r.enrollmentCount = .num 0) ∧
    (pathLookupTruthy d ["attributes", "rating", "averageRating"] = none →
      r.ratingAvg = .num 0) ∧
    (pathLookupTruthy d ["attributes", "rating", "ratingsCount"] = none →
      r.ratingCount = .num 0) ∧
    (pathLookupTruthy d ["attributes", "imageUrl"] = none → r.imageUrl = .str "") ∧
    (pathLookupTruthy d ["attributes", "loFormat"] = none →
      r.loFormat = .str "Self-paced") ∧
    (chainGet (chainGet (jsGetO d "relationships") "instances") "data" = none →
      r.coreModules = []) ∧
    (chainGet (chainGet (jsGetO d "relationships") "prerequisiteLOs") "data" = none →
      r.prerequisites = []) ∧
    (chainGet (chainGet (jsGetO d "relationships") "supplementaryLOs") "data" = none →
      r.jobAids = []) := by
  have hdocnn : doc ≠ Json.null := by
    intro h
    rw [h] at hd
    simp [jsGetO] at hd
  have hseldoc : jsSel doc "data" = .ok (some d) := by
    rw [jsSel_ne_null doc hdocnn, hd]
  unfold processCourseData at hrun
  obtain ⟨dO, h1, hrun⟩ := exBind_ok_inv hrun
  rw [hseldoc] at h1
  injection h1 with h1
  subst h1
  obtain ⟨ty, h2, hrun⟩ := exBind_ok_inv hrun
  have hdnn : d ≠ Json.null := by
    intro h
    subst h
    simp [jsSelO, jsSel] at h2
  obtain ⟨sk, h3, hrun⟩ := exBind_ok_inv hrun
  dsimp only [] at hrun
  have key : ∃ cl cm pre ja,
      extractCoreModules doc coin = .ok cm ∧
      extractPrerequisites doc = .ok pre ∧
      extractJobAids doc = .ok ja ∧
      ((jsIsStr (safeGet ((some d).getD Json.null) "attributes.skillLevel"
          (Json.str "N/A")) "N/A" && !sk.isEmpty) = false →
        cl = safeGet ((some d).getD Json.null) "attributes.skillLevel" (Json.str "N/A")) ∧
      r = { courseId := cid
            instanceId := iid
            courseTitle := safeGet ((some d).getD Json.null)
              "attributes.localizedMetadata.0.name" (Json.str "Untitled Course")
            courseDescription := jsOr (safeGet ((some d).getD Json.null)
              "attributes.localizedMetadata.0.description"
              (Json.str "No description available")) (Json.str "No description available")
            courseOverview := jsOr (safeGet ((some d).getD Json.null)
              "attributes.localizedMetadata.0.overview"
              (Json.str "No overview available")) (Json.str "No overview available")
            courseType := if jsStrictEqO ty (some (Json.str "learningProgram")) = true
              then "Learning Program" else "Course"
            courseDuration := formatDuration (safeGet ((some d).getD Json.null)
              "attributes.duration" (Json.num 0))
            courseLevel := cl
            courseSkills := if jsJoinO ", " sk = "" then "No skills specified"
              else jsJoinO ", " sk
            enrollmentCount := safeGet ((some d).getD Json.null)
              "attributes.enrollmentCount" (Json.num 0)
            ratingAvg := safeGet ((some d).getD Json.null)
              "attributes.rating.averageRating" (Json.num 0)
            ratingCount := safeGet ((some d).getD Json.null)
              "attributes.rating.ratingsCount" (Json.num 0)
            imageUrl := safeGet ((some d).getD Json.null) "attributes.imageUrl"
              (Json.str "")
            loFormat := safeGet ((some d).getD Json.null) "attributes.loFormat"
              (Json.str "Self-paced")
            coreModules := cm
            prerequisites := pre
            jobAids := ja
            timestamp := ts } := by
    by_cases hcond : (jsIsStr (safeGet ((some d).getD Json.null)
        "attributes.skillLevel" (Json.str "N/A")) "N/A" && !sk.isEmpty) = true
    · rw [if_pos hcond] at hrun
      obtain ⟨fsk, hfsk, hrun⟩ := exBind_ok_inv hrun
      cases fsk with
      | none =>
        obtain ⟨cl, hcl2, hrun⟩ := exBind_ok_inv hrun
        obtain ⟨cm, hcm, hrun⟩ := exBind_ok_inv hrun
        obtain ⟨pre, hpre, hrun⟩ := exBind_ok_inv hrun
        obtain ⟨ja, hja, hrun⟩ := exBind_ok_inv hrun
        simp only [exPure, Except.ok.injEq] at hrun
        exact ⟨cl, cm, pre, ja, hcm, hpre, hja,
          fun hf => absurd (hf.symm.trans hcond) Bool.false_ne_true, hrun.symm⟩
      | some fs =>
        obtain ⟨attrsO, hao, hrun⟩ := exBind_ok_inv hrun
        obtain ⟨cl, hcl2, hrun⟩ := exBind_ok_inv hrun
        obtain ⟨cm, hcm, hrun⟩ := exBind_ok_inv hrun
        obtain ⟨pre, hpre, hrun⟩ := exBind_ok_inv hrun
        obtain ⟨ja, hja, hrun⟩ := exBind_ok_inv hrun
        simp only [exPure, Except.ok.injEq] at hrun
        exact ⟨cl, cm, pre, ja, hcm, hpre, hja,
          fun hf => absurd (hf.symm.trans hcond) Bool.false_ne_true, hrun.symm⟩
    · rw [if_neg hcond] at hrun
      obtain ⟨cl, hcl2, hrun⟩ := exBind_ok_inv hrun
      obtain ⟨cm, hcm, hrun⟩ := exBind_ok_inv hrun
      obtain ⟨pre, hpre, hrun⟩ := exBind_ok_inv hrun
      obtain ⟨ja, hja, hrun⟩ := exBind_ok_inv hrun
      simp only [exPure, Except.ok.injEq] at hrun
      have hcl3 : cl = safeGet ((some d).getD Json.null) "attributes.skillLevel"
          (Json.str "N/A") := by
        simp only [exPure, Except.ok.injEq] at hcl2
        exact hcl2.symm
      exact ⟨cl, cm, pre, ja, hcm, hpre, hja, fun _ => hcl3, hrun.symm⟩
  obtain ⟨cl, cm, pre, ja, hcm, hpre, hja, hclv, hrec⟩ := key
  subst hrec
  refine ⟨?_, ?_, ?_, ?_, ?_, ?_, ?_, ?_, ?_, ?_, ?_, ?_, ?_, ?_⟩
  · intro hT
    show safeGetL d ["attributes", "localizedMetadata", "0", "name"]
      (Json.str "Untitled Course") = Json.str "Untitled Course"
    obtain ⟨ks', hks', heq⟩ := pathFail_suffix d _ _ hT
    rw [heq]
    simp only [List.tails, List.mem_cons, List.mem_singleton, List.mem_nil_iff, or_false] at hks'
    rcases hks' with rfl | rfl | rfl | rfl | rfl <;> rfl
  · intro hT
    show jsOr (safeGetL d ["attributes", "localizedMetadata", "0", "description"]
        (Json.str "No description available")) (Json.str "No description available")
      = Json.str "No description available"
    obtain ⟨ks', hks', heq⟩ := pathFail_suffix d _ _ hT
    rw [heq]
    simp only [List.tails, List.mem_cons, List.mem_singleton, List.mem_nil_iff, or_false] at hks'
    rcases hks' with rfl | rfl | rfl | rfl | rfl <;> rfl
  · intro hT
    show jsOr (safeGetL d ["attributes", "localizedMetadata", "0", "overview"]
        (Json.str "No overview available")) (Json.str "No overview available")
      = Json.str "No overview available"
    obtain ⟨ks', hks', heq⟩ := pathFail_suffix d _ _ hT
    rw [heq]
    simp only [List.tails, List.mem_cons, List.mem_singleton, List.mem_nil_iff, or_false] at hks'
    rcases hks' with rfl | rfl | rfl | rfl | rfl <;> rfl
  · intro hD
    show formatDuration (safeGetL d ["attributes", "duration"] (Json.num 0)) = "N/A"
    rcases hD with hD | hD
    · obtain ⟨ks', hks', heq⟩ := pathFail_suffix d _ (Json.num 0) hD
      rw [heq, safeGetL_falsy_fold (Json.num 0) rfl ks']
      rfl
    · rw [pathFound_safeGetL d _ (Json.num 0) _ hD]
      rfl
  · intro hL hsk0
    rw [h3] at hsk0
    injection hsk0 with hskeq
    subst hskeq
    have hcl := hclv (by simp)
    show cl = Json.str "N/A"
    rw [hcl]
    show safeGetL d ["attributes", "skillLevel"] (Json.str "N/A") = Json.str "N/A"
    obtain ⟨ks', hks', heq⟩ := pathFail_suffix d _ _ hL
    rw [heq]
    simp only [List.tails, List.mem_cons, List.mem_singleton, List.mem_nil_iff, or_false] at hks'
    rcases hks' with rfl | rfl | rfl <;> rfl
  · intro hS
    have hsk0 := extractSkills_nil doc hdocnn hS
    rw [h3] at hsk0
    injection hsk0 with hskeq
    subst hskeq
    rfl
  · intro hT
    show safeGetL d ["attributes", "enrollmentCount"] (Json.num 0) = Json.num 0
    obtain ⟨ks', hks', heq⟩ := pathFail_suffix d _ (Json.num 0) hT
    rw [heq, safeGetL_falsy_fold (Json.num 0) rfl ks']
  · intro hT
    show safeGetL d ["attributes", "rating", "averageRating"] (Json.num 0) = Json.num 0
    obtain ⟨ks', hks', heq⟩ := pathFail_suffix d _ (Json.num 0) hT
    rw [heq, safeGetL_falsy_fold (Json.num 0) rfl ks']
  · intro hT
    show safeGetL d ["attributes", "rating", "ratingsCount"] (Json.num 0) = Json.num 0
    obtain ⟨ks', hks', heq⟩ := pathFail_suffix d _ (Json.num 0) hT
    rw [heq, safeGetL_falsy_fold (Json.num 0) rfl ks']
  · intro hT
    show safeGetL d ["attributes", "imageUrl"] (Json.str "") = Json.str ""
    obtain ⟨ks', hks', heq⟩ := pathFail_suffix d _ (Json.str "") hT
    rw [heq, safeGetL_falsy_fold (Json.str "") rfl ks']
  · intro hT
    show safeGetL d ["attributes", "loFormat"] (Json.str "Self-paced")
      = Json.str "Self-paced"
    obtain ⟨ks', hks', heq⟩ := pathFail_suffix d _ _ hT
    rw [heq]
    simp only [List.tails, List.mem_cons, List.mem_singleton, List.mem_nil_iff, or_false] at hks'
    rcases hks' with rfl | rfl | rfl <;> rfl
  · intro hM
    have hcma : extractCoreModules doc coin = .ok [] := by
      simp [extractCoreModules, hseldoc, exBind_ok, jsSelO,
        jsSel_ne_null d hdnn, hM, exPure]
    rw [hcm] at hcma
    injection hcma with hcma
  · intro hM
    have hpra : extractPrerequisites doc = .ok [] := by
      simp [extractPrerequisites, hseldoc, exBind_ok, jsSelO,
        jsSel_ne_null d hdnn, hM, truthyO, exPure]
    rw [hpre] at hpra
    injection hpra with hpra
  · intro hM
    have hjaa : extractJobAids doc = .ok [] := by
      simp [extractJobAids, hseldoc, exBind_ok, jsSelO,
        jsSel_ne_null d hdnn, hM, truthyO, exPure]
    rw [hja] at hjaa
    injection hjaa with hjaa

theorem processCourseData_defaults_witness :
    ∃ r, processCourseData
        (Json.obj [("data", Json.obj [("id", Json.str "7"), ("type", Json.str "course"),
            ("attributes", Json.obj [("duration", Json.num 0)])]),
          ("included", Json.arr [Json.obj [("type", Json.str "note")]])])
        (Json.str "7") Json.null (fun _ => true) "2026-01-01T00:00:00.000Z" = .ok r ∧
      r.courseTitle = .str "Untitled Course" ∧
      r.courseDescription = .str "No description available" ∧
      r.courseOverview = .str "No overview available" ∧
      r.courseDuration = "N/A" ∧
      r.courseLevel = .str "N/A" ∧
      r.courseSkills = "No skills specified" ∧
      r.enrollmentCount = .num 0 ∧
      r.ratingAvg = .num 0 ∧
      r.ratingCount = .num 0 ∧
      r.imageUrl = .str "" ∧
      r.loFormat = .str "Self-paced" ∧
      r.coreModules = [] ∧
      r.prerequisites = [] ∧
      r.jobAids = [] := by
  have H := processCourseData_defaults
    (Json.obj [("data", Json.obj [("id", Json.str "7"), ("type", Json.str "course"),
        ("attributes", Json.obj [("duration", Json.num 0)])]),
      ("included", Json.arr [Json.obj [("type", Json.str "note")]])])
    (Json.obj [("id", Json.str "7"), ("type", Json.str "course"),
      ("attributes", Json.obj [("duration", Json.num 0)])])
    (Json.str "7") Json.null (fun _ => true) "2026-01-01T00:00:00.000Z" _ rfl rfl
  refine ⟨_, rfl, H.1 rfl, H.2.1 rfl, H.2.2.1 rfl, H.2.2.2.1 (Or.inr rfl),
    H.2.2.2.2.1 rfl rfl,
    H.2.2.2.2.2.1 (Or.inr ⟨[Json.obj [("type", Json.str "note")]], rfl, ?_⟩),
    H.2.2.2.2.2.2.1 rfl, H.2.2.2.2.2.2.2.1 rfl, H.2.2.2.2.2.2.2.2.1 rfl,
    H.2.2.2.2.2.2.2.2.2.1 rfl, H.2.2.2.2.2.2.2.2.2.2.1 rfl,
    H.2.2.2.2.2.2.2.2.2.2.2.1 rfl, H.2.2.2.2.2.2.2.2.2.2.2.2.1 rfl,
    H.2.2.2.2.2.2.2.2.2.2.2.2.2 rfl⟩
  intro item him
  rw [List.mem_singleton] at him
  subst him
  exact ⟨some (Json.str "note"), rfl, rfl⟩

/-! ### Claim C7: job-aid extraction -/

/-- The effectful included-lookup coincides with the pure first-match by id
when neither the outer item nor any included element is null. -/
theorem jsFindListM_pure (item : Json) (hitem : item ≠ Json.null) :
    ∀ (inc : List Json), Json.null ∉ inc →
      jsFindListM (idMatchesRes item) inc =
        .ok (findById inc (jsGetO item "id")) := by
  intro inc
  induction inc with
  | nil => intro _; rfl
  | cons it rest ih =>
    intro hnull
    have hit : it ≠ Json.null := by
      intro h
      exact hnull (by rw [h]; exact List.mem_cons_self _ _)
    have hrest : Json.null ∉ rest := fun h => hnull (List.mem_cons_of_mem _ h)
    simp only [jsFindListM, idMatchesRes, jsSel_ne_null it hit, exBind_ok,
      jsSel_ne_null item hitem, exPure]
    by_cases heq : jsStrictEqO (jsGetO it "id") (jsGetO item "id") = true
    · simp [heq, findById, List.find?_cons_of_pos]
    · have heq' : jsStrictEqO (jsGetO it "id") (jsGetO item "id") = false := by
        cases hb : jsStrictEqO (jsGetO it "id") (jsGetO item "id")
        · rfl
        · exact absurd hb heq
      rw [if_neg (by simp [heq'])]
      rw [ih hrest]
      simp [findById, List.find?_cons_of_neg, heq']

/-- The filter stage of `extractJobAids` computes, without throwing, the
pure filter by resolved loType when no element in sight is null. -/
theorem jobAidFilter_pure (inc : List Json) (hinc : Json.null ∉ inc) :
    ∀ items : List Json, Json.null ∉ items →
      jobAidFilter (.arr inc) items = .ok (items.filter (fun item =>
        match findById inc (jsGetO item "id") with
        | some rec => isJobAidRecord rec
        | none => false)) := by
  intro items
  induction items with
  | nil => intro _; rfl
  | cons item rest ih =>
    intro hnull
    have hitem : item ≠ Json.null := by
      intro h
      exact hnull (by rw [h]; exact List.mem_cons_self _ _)
    have hrest : Json.null ∉ rest := fun h => hnull (List.mem_cons_of_mem _ h)
    simp only [jobAidFilter, jsFindM, jsFindListM_pure item hitem inc hinc, exBind_ok]
    cases hfind : findById inc (jsGetO item "id") with
    | none =>
      simp only [exBind_ok, ih hrest, exPure, List.filter_cons, hfind]
    | some rec =>
      have hrecmem : rec ∈ inc := List.mem_of_find?_eq_some hfind
      have hrec : rec ≠ Json.null := fun h => hinc (h ▸ hrecmem)
      simp only [jsSel_ne_null rec hrec, exBind_ok]
      cases hattr : jsGetO rec "attributes" with
      | none =>
        simp only [exBind_ok, ih hrest, exPure, List.filter_cons, hfind,
          isJobAidRecord, hattr]
      | some attrs =>
        by_cases htr : truthy attrs
        · simp only [htr, if_true, exBind_ok, ih hrest, exPure, List.filter_cons,
            hfind, isJobAidRecord, hattr, Bool.true_and]
        · simp only [htr, if_false, Bool.false_eq_true, exBind_ok, ih hrest,
            exPure, List.filter_cons, hfind, isJobAidRecord, hattr, Bool.false_and]

/-- The build stage of `extractJobAids`: on items that all pass the filter,
it produces exactly one declarative entry per item, in order. -/
theorem jobAidBuild_pure (inc : List Json) (hinc : Json.null ∉ inc) :
    ∀ items : List Json, Json.null ∉ items →
      (∀ item ∈ items, ∃ rec, findById inc (jsGetO item "id") = some rec ∧
        isJobAidRecord rec = true) →
      jobAidBuild (.arr inc) items = .ok (items.map (jobAidEntry inc)) := by
  intro items
  induction items with
  | nil => intro _ _; rfl
  | cons item rest ih =>
    intro hnull hpass
    have hitem : item ≠ Json.null := by
      intro h
      exact hnull (by rw [h]; exact List.mem_cons_self _ _)
    have hrest : Json.null ∉ rest := fun h => hnull (List.mem_cons_of_mem _ h)
    obtain ⟨rec, hfind, hja⟩ := hpass item (List.mem_cons_self _ _)
    have hrecmem : rec ∈ inc := List.mem_of_find?_eq_some hfind
    have hrec : rec ≠ Json.null := fun h => hinc (h ▸ hrecmem)
    obtain ⟨attrs, hattr, htr⟩ : ∃ attrs, jsGetO rec "attributes" = some attrs ∧
        truthy attrs = true := by
      unfold isJobAidRecord at hja
      cases hattr : jsGetO rec "attributes" with
      | none => rw [hattr] at hja; exact absurd hja (by simp)
      | some attrs =>
        rw [hattr] at hja
        exact ⟨attrs, rfl, by
          cases htr : truthy attrs
          · simp [htr] at hja
          · rfl⟩
    simp only [jobAidBuild, jsFindM, jsFindListM_pure item hitem inc hinc,
      exBind_ok, hfind, jsSel_ne_null rec hrec, hattr, htr, if_true,
      jsSel_ne_null item hitem,
      ih hrest (fun it hit => hpass it (List.mem_cons_of_mem _ hit)), exPure,
      List.map_cons, jobAidEntry, Option.getD_some]

/-- Claim C7, amended: on a document with a supplementary learning object
array and no null entries in sight, `extractJobAids` returns exactly one
entry per supplementary learning object whose included record has truthy
attributes of loType `jobAid`, in document order, excluding every other
loType and every id without an included record; the name of an entry
defaults to the record attributes name and only then to "Job Aid" when the
localized metadata is missing, and the description defaults to
"Job aid description" whenever the resolved description is missing or
falsy. -/
theorem extractJobAids_spec (doc d rels suppV : Json)
    (items inc : List Json)
    (h1 : jsGetO doc "data" = some d) (h2 : d ≠ Json.null)
    (h3 : jsGetO d "relationships" = some rels) (h4 : truthy rels = true)
    (h5 : jsGetO rels "supplementaryLOs" = some suppV) (h6 : truthy suppV = true)
    (h7 : jsGetO suppV "data" = some (.arr items))
    (h8 : includedValue doc = .arr inc)
    (h9 : Json.null ∉ items) (h10 : Json.null ∉ inc) :
    extractJobAids doc = .ok (jobAidsSpec inc items) := by
  have hdoc : doc ≠ Json.null := by
    intro h
    rw [h] at h1
    simp [jsGetO] at h1
  have hseldoc : jsSel doc "data" = .ok (some d) := by
    rw [jsSel_ne_null doc hdoc, h1]
  have hreld : jsSel d "relationships" = .ok (some rels) := by
    rw [jsSel_ne_null d h2, h3]
  have hc1 : chainGet (some rels) "supplementaryLOs" = some suppV := by
    simp [chainGet, h4, h5]
  have hc2 : chainGet (some suppV) "data" = some (.arr items) := by
    simp [chainGet, h6, h7]
  simp only [extractJobAids, hseldoc, exBind_ok, jsSelO, hreld, hc1, hc2,
    truthyO, truthy, if_true, h8, jobAidFilter_pure inc h10 items h9]
  rw [jobAidBuild_pure inc h10 _ ?nullfree ?pass]
  case nullfree =>
    intro h
    exact h9 (List.mem_of_mem_filter h)
  case pass =>
    intro item hmem
    have hpred := List.of_mem_filter hmem
    cases hfind : findById inc (jsGetO item "id") with
    | none => rw [hfind] at hpred; exact absurd hpred (by simp)
    | some rec =>
      rw [hfind] at hpred
      exact ⟨rec, rfl, hpred⟩
  rfl

/-- Witness for the amended C7 theorem at a concrete document. -/
theorem extractJobAids_spec_witness :
    extractJobAids jobAidNameDoc = .ok (jobAidsSpec
      [Json.obj [("id", Json.str "s1"),
        ("attributes", Json.obj [("loType", Json.str "jobAid"),
          ("name", Json.str "Custom Name")])]]
      [Json.obj [("id", Json.str "s1")]]) :=
  extractJobAids_spec jobAidNameDoc
    (Json.obj [("id", Json.str "c2"), ("type", Json.str "course"),
      ("relationships", Json.obj [("supplementaryLOs", Json.obj [("data",
        Json.arr [Json.obj [("id", Json.str "s1")]])])])])
    (Json.obj [("supplementaryLOs", Json.obj [("data",
      Json.arr [Json.obj [("id", Json.str "s1")]])])])
    (Json.obj [("data", Json.arr [Json.obj [("id", Json.str "s1")]])])
    [Json.obj [("id", Json.str "s1")]]
    [Json.obj [("id", Json.str "s1"),
      ("attributes", Json.obj [("loType", Json.str "jobAid"),
        ("name", Json.str "Custom Name")])]]
    rfl (by simp) rfl rfl rfl rfl rfl rfl (by simp) (by simp)

/-- Claim C7, counterexample: with localized metadata missing but a truthy
`attributes.name` present, the extracted job-aid name is that attributes
name rather than the claimed default "Job Aid". -/
theorem extractJobAids_name_counterexample :
    extractJobAids jobAidNameDoc = .ok
      [{ id := some (Json.str "s1"), name := some (Json.str "Custom Name"),
         description := Json.str "Job aid description" }] ∧
    some (Json.str "Custom Name") ≠ some (Json.str "Job Aid") := by
  refine ⟨rfl, ?_⟩
  intro h
  injection h with h1
  injection h1 with h2
  exact absurd h2 (by decide)


/-! ### Claim C6: meta round trip between assembler and decorator -/

theorem strMk_data (s : String) : String.mk s.data = s := rfl

theorem isPrefixOf_self_append (p x : List Char) : p.isPrefixOf (p ++ x) = true := by
  induction p with
  | nil => rw [List.nil_append]; cases x <;> rfl
  | cons a as ih => simp [List.isPrefixOf, ih]

theorem not_isPrefixOf_append (p s r : List Char)
    (h : p.take (min p.length s.length) ≠ s.take (min p.length s.length)) :
    p.isPrefixOf (s ++ r) = false := by
  cases hb : p.isPrefixOf (s ++ r) with
  | false => rfl
  | true =>
    exfalso
    have hpre : p <+: s ++ r := List.isPrefixOf_iff_prefix.mp hb
    obtain ⟨t, ht⟩ := hpre
    apply h
    have hmp : min p.length s.length ≤ p.length := Nat.min_le_left _ _
    have hms : min p.length s.length ≤ s.length := Nat.min_le_right _ _
    have := congrArg (List.take (min p.length s.length)) ht
    rw [List.take_append_of_le_length hmp, List.take_append_of_le_length hms] at this
    exact this

theorem findAfter_cons_neg {p : List Char} {c : Char} {cs : List Char}
    (h : p.isPrefixOf (c :: cs) = false) :
    findAfter p (c :: cs) = findAfter p cs := by
  simp [findAfter, h]

theorem findAfter_cons_pos {p : List Char} {c : Char} {cs : List Char}
    (h : p.isPrefixOf (c :: cs) = true) :
    findAfter p (c :: cs) = some ((c :: cs).drop p.length) := by
  simp [findAfter, h]

theorem findAfter_clean (p lit r : List Char) (h : cleanFor p lit = true) :
    findAfter p (lit ++ r) = findAfter p r := by
  induction lit with
  | nil => rfl
  | cons c cs ih =>
    simp only [cleanFor, Bool.and_eq_true, bne_iff_ne] at h
    obtain ⟨hne, hclean⟩ := h
    rw [List.cons_append]
    have hb : p.isPrefixOf (c :: (cs ++ r)) = false := by
      have := not_isPrefixOf_append p (c :: cs) r hne
      rwa [List.cons_append] at this
    rw [findAfter_cons_neg hb]
    exact ih hclean

theorem findAfter_text (p : List Char) (hp : ∃ q, p = '<' :: q)
    (fld r : List Char) (hf : ∀ c ∈ fld, c ≠ '<') :
    findAfter p (fld ++ r) = findAfter p r := by
  obtain ⟨q, rfl⟩ := hp
  induction fld with
  | nil => rfl
  | cons c cs ih =>
    have hc : c ≠ '<' := hf c (List.mem_cons_self _ _)
    have hcs : ∀ x ∈ cs, x ≠ '<' := fun x hx => hf x (List.mem_cons_of_mem _ hx)
    rw [List.cons_append]
    have hb : ('<' :: q).isPrefixOf (c :: (cs ++ r)) = false := by
      simp [List.isPrefixOf]
      intro he
      exact absurd he.symm hc
    rw [findAfter_cons_neg hb]
    exact ih hcs

theorem findAfter_self (p x : List Char) (hp : p ≠ []) :
    findAfter p (p ++ x) = some x := by
  cases p with
  | nil => exact absurd rfl hp
  | cons a as =>
    have hpre := isPrefixOf_self_append (a :: as) x
    rw [List.cons_append] at hpre ⊢
    rw [findAfter_cons_pos hpre, ← List.cons_append, List.drop_left]

theorem takeWhile_quote (fld r : List Char) (hf : ∀ c ∈ fld, c ≠ '"') :
    (fld ++ '"' :: r).takeWhile (fun ch => ch ≠ '"') = fld := by
  induction fld with
  | nil =>
    rw [List.nil_append, List.takeWhile_cons]
    simp
  | cons c cs ih =>
    have hc : c ≠ '"' := hf c (List.mem_cons_self _ _)
    have hcs : ∀ x ∈ cs, x ≠ '"' := fun x hx => hf x (List.mem_cons_of_mem _ hx)
    rw [List.cons_append, List.takeWhile_cons]
    have hcond : (fun ch => decide (ch ≠ '"')) c = true := by simp [hc]
    rw [if_pos hcond, ih hcs]

theorem noSpecials_mem {s : String} (h : noSpecialsB s = true) :
    ∀ c ∈ s.data, c ≠ '&' ∧ c ≠ '<' ∧ c ≠ '>' ∧ c ≠ '"' ∧ c ≠ '\'' := by
  intro c hc
  unfold noSpecialsB at h
  have := List.all_eq_true.mp h c hc
  simp only [Bool.and_eq_true, decide_eq_true_eq] at this
  tauto

theorem escFoldr_noop (l : List Char)
    (h : ∀ c ∈ l, c ≠ '&' ∧ c ≠ '<' ∧ c ≠ '>' ∧ c ≠ '"' ∧ c ≠ '\'') :
    l.foldr (fun c acc => escChar c ++ acc) [] = l := by
  induction l with
  | nil => rfl
  | cons c cs ih =>
    obtain ⟨h1, h2, h3, h4, h5⟩ := h c (List.mem_cons_self _ _)
    have hcs := fun x hx => h x (List.mem_cons_of_mem _ hx)
    rw [List.foldr_cons, ih hcs]
    show escChar c ++ cs = c :: cs
    simp [escChar, h1, h2, h3, h4, h5]

theorem escapeHtmlStr_noop {s : String} (h : noSpecialsB s = true) :
    escapeHtmlStr s = s := by
  unfold escapeHtmlStr
  rw [escFoldr_noop s.data (noSpecials_mem h)]

theorem takeWhile_quote_head (fld r : List Char) (hf : ∀ c ∈ fld, c ≠ '"')
    (hr : r.head? = some '"') :
    (fld ++ r).takeWhile (fun ch => ch ≠ '"') = fld := by
  cases r with
  | nil => simp at hr
  | cons a t =>
    have ha : a = '"' := by simpa using hr
    subst ha
    exact takeWhile_quote fld t hf

theorem esc_str (s : String) : esc (Json.str s) = escapeHtmlStr s := rfl

theorem escS_noop {s : String} (h : noSpecialsB s = true) : escS s = s :=
  escapeHtmlStr_noop h

set_option maxRecDepth 16384 in
theorem metaHeadTail_head (c : CourseRecord) : (metaHeadTail c).data.head? = some '\"' := by
  have h1 : (metaHeadTail c).data = "\">\n  <meta name=\"course-type\" content=\"".data ++ ((escS c.courseType).data ++ ("\">\n  <meta name=\"course-rating\" content=\"".data ++ ((jsToString c.ratingAvg).data ++ ("\">\n  <meta name=\"course-enrollment-count\" content=\"".data ++ ((jsToString c.enrollmentCount).data ++ ("\">\n\n  <!-- Open Graph Meta Tags -->\n  <meta property=\"og:type\" content=\"website\">\n  <meta property=\"og:title\" content=\"".data ++ ((esc c.courseTitle).data ++ (" - Course Viewer\">\n  <meta property=\"og:description\" content=\"".data ++ ((esc c.courseDescription).data ++ ("\">\n  <meta property=\"og:image\" content=\"".data ++ ((esc (imageUrlOf c)).data ++ ("\">\n</head>\n\n<body>\n  <header></header>\n  <main>\n    <div>\n      <div class=\"course-overview\">\n        <!-- Course Header -->\n        <div class=\"course-header\">\n          <div class=\"course-hero\">\n            <h1 class=\"course-title\">".data ++ ((esc c.courseTitle).data ++ ("</h1>\n            <div class=\"course-format\">".data ++ ((esc c.loFormat).data ++ ("</div>\n          </div>\n        </div>\n        \n        <!-- Main Content -->\n        <div class=\"course-main-content\">\n          <!-- Left Content -->\n          <div class=\"course-left-content\">\n            ".data ++ ((prerequisitesHTML c).data ++ ("\n            ".data ++ ((modulesHTML c).data ++ ("\n          </div>\n          \n          <!-- Sidebar -->\n          <div class=\"course-sidebar\">\n            <div class=\"sidebar-actions\">\n              <button class=\"continue-btn\">Continue</button>\n            </div>\n            \n            <div class=\"sidebar-section progress-section\">\n              <div class=\"progress-item\">\n                <span class=\"progress-count\">".data ++ ((toString (c.coreModules.filter (fun m => m.isCompleted)).length).data ++ ("/".data ++ ((toString c.coreModules.length).data ++ ("</span>\n                <span class=\"progress-label\">Core content completed</span>\n              </div>\n            </div>\n            \n            ".data ++ ((jobAidsHTML c).data ++ ("\n          </div>\n        </div>\n      </div>\n    </div>\n  </main>\n  <footer></footer>\n</body>\n\n</html>".data)))))))))))))))))))))))))) := by
    simp only [metaHeadTail, String.data_append, List.append_assoc]
  rw [h1]
  rfl


set_option maxRecDepth 16384 in
set_option maxHeartbeats 2000000 in
/-- C6: the client-side decorator recovers the course data the action
embedded: on the generated document, `getCourseDataFromMeta` returns exactly
the course id, title, duration, skill level, skills and description that
`generateCourseHTML` wrote into the head meta tags, whenever those values
are plain strings without HTML-special characters (so that escaping is the
identity and the attribute scan is unambiguous). -/
theorem generateCourseHTML_meta_roundtrip (c : CourseRecord)
    (sid st sd sl : String)
    (hid : c.courseId = Json.str sid) (hidS : noSpecialsB sid = true)
    (ht : c.courseTitle = Json.str st) (htS : noSpecialsB st = true)
    (hd : c.courseDescription = Json.str sd) (hdS : noSpecialsB sd = true)
    (hl : c.courseLevel = Json.str sl) (hlS : noSpecialsB sl = true)
    (hdurS : noSpecialsB c.courseDuration = true)
    (hskS : noSpecialsB c.courseSkills = true)
    (htsS : noSpecialsB c.timestamp = true) :
    getCourseDataFromMeta (generateCourseHTML c) =
      { courseId := sid
        courseTitle := st
        courseDuration := c.courseDuration
        courseSkillLevel := sl
        courseSkills := c.courseSkills
        courseDescription := sd } := by
  have hescT : esc c.courseTitle = st := by rw [ht, esc_str, escapeHtmlStr_noop htS]
  have hescD : esc c.courseDescription = sd := by rw [hd, esc_str, escapeHtmlStr_noop hdS]
  have hescI : esc c.courseId = sid := by rw [hid, esc_str, escapeHtmlStr_noop hidS]
  have hescL : esc c.courseLevel = sl := by rw [hl, esc_str, escapeHtmlStr_noop hlS]
  have hescDur : escS c.courseDuration = c.courseDuration := escS_noop hdurS
  have hescSk : escS c.courseSkills = c.courseSkills := escS_noop hskS
  have hdata : (generateCourseHTML c).data =
      "<head>\n  <meta charset=\"utf-8\">\n  <title>".data ++ (st.data ++ (" - Course Viewer</title>\n  <meta name=\"description\" content=\"".data ++ (sd.data ++ ("\">\n  <meta name=\"author\" content=\"ALM Course Viewer\">\n  <meta name=\"timestamp\" content=\"".data ++ (c.timestamp.data ++ ("\">\n  \n  <!-- Course Meta Tags for EDS Indexing -->\n  <meta name=\"course-id\" content=\"".data ++ (sid.data ++ ("\">\n  <meta name=\"course-title\" content=\"".data ++ (st.data ++ ("\">\n  <meta name=\"course-duration\" content=\"".data ++ (c.courseDuration.data ++ ("\">\n  <meta name=\"course-skill-level\" content=\"".data ++ (sl.data ++ ("\">\n  <meta name=\"course-skills\" content=\"".data ++ (c.courseSkills.data ++ ((metaHeadTail c).data)))))))))))))))) := by
    simp only [generateCourseHTML, metaHeadTail, hescT, hescD, hescI, hescL,
      hescDur, hescSk, String.data_append, List.append_assoc]
  have hDesc : metaContent (generateCourseHTML c) "description" = some sd := by
    unfold metaContent
    rw [hdata]
    rw [findAfter_clean ('<' :: metaPat "description") "<head>\n  <meta charset=\"utf-8\">\n  <title>".data _ (by decide)]
    rw [findAfter_text ('<' :: metaPat "description") ⟨_, rfl⟩ st.data _ (fun x hx => ((noSpecials_mem htS) x hx).2.1)]
    rw [(by decide : (" - Course Viewer</title>\n  <meta name=\"description\" content=\"".data : List Char) = " - Course Viewer</title>\n  ".data ++ ('<' :: metaPat "description"))]
    rw [List.append_assoc]
    rw [findAfter_clean ('<' :: metaPat "description") " - Course Viewer</title>\n  ".data _ (by decide)]
    rw [findAfter_self ('<' :: metaPat "description") _ (List.cons_ne_nil _ _)]
    rw [Option.map_some']
    rw [takeWhile_quote_head sd.data ("\">\n  <meta name=\"author\" content=\"ALM Course Viewer\">\n  <meta name=\"timestamp\" content=\"".data ++ (c.timestamp.data ++ ("\">\n  \n  <!-- Course Meta Tags for EDS Indexing -->\n  <meta name=\"course-id\" content=\"".data ++ (sid.data ++ ("\">\n  <meta name=\"course-title\" content=\"".data ++ (st.data ++ ("\">\n  <meta name=\"course-duration\" content=\"".data ++ (c.courseDuration.data ++ ("\">\n  <meta name=\"course-skill-level\" content=\"".data ++ (sl.data ++ ("\">\n  <meta name=\"course-skills\" content=\"".data ++ (c.courseSkills.data ++ ((metaHeadTail c).data))))))))))))) (fun x hx => ((noSpecials_mem hdS) x hx).2.2.2.1) rfl]
  have hID : metaContent (generateCourseHTML c) "course-id" = some sid := by
    unfold metaContent
    rw [hdata]
    rw [findAfter_clean ('<' :: metaPat "course-id") "<head>\n  <meta charset=\"utf-8\">\n  <title>".data _ (by decide)]
    rw [findAfter_text ('<' :: metaPat "course-id") ⟨_, rfl⟩ st.data _ (fun x hx => ((noSpecials_mem htS) x hx).2.1)]
    rw [findAfter_clean ('<' :: metaPat "course-id") " - Course Viewer</title>\n  <meta name=\"description\" content=\"".data _ (by decide)]
    rw [findAfter_text ('<' :: metaPat "course-id") ⟨_, rfl⟩ sd.data _ (fun x hx => ((noSpecials_mem hdS) x hx).2.1)]
    rw [findAfter_clean ('<' :: metaPat "course-id") "\">\n  <meta name=\"author\" content=\"ALM Course Viewer\">\n  <meta name=\"timestamp\" content=\"".data _ (by decide)]
    rw [findAfter_text ('<' :: metaPat "course-id") ⟨_, rfl⟩ c.timestamp.data _ (fun x hx => ((noSpecials_mem htsS) x hx).2.1)]
    rw [(by decide : ("\">\n  \n  <!-- Course Meta Tags for EDS Indexing -->\n  <meta name=\"course-id\" content=\"".data : List Char) = "\">\n  \n  <!-- Course Meta Tags for EDS Indexing -->\n  ".data ++ ('<' :: metaPat "course-id"))]
    rw [List.append_assoc]
    rw [findAfter_clean ('<' :: metaPat "course-id") "\">\n  \n  <!-- Course Meta Tags for EDS Indexing -->\n  ".data _ (by decide)]
    rw [findAfter_self ('<' :: metaPat "course-id") _ (List.cons_ne_nil _ _)]
    rw [Option.map_some']
    rw [takeWhile_quote_head sid.data ("\">\n  <meta name=\"course-title\" content=\"".data ++ (st.data ++ ("\">\n  <meta name=\"course-duration\" content=\"".data ++ (c.courseDuration.data ++ ("\">\n  <meta name=\"course-skill-level\" content=\"".data ++ (sl.data ++ ("\">\n  <meta name=\"course-skills\" content=\"".data ++ (c.courseSkills.data ++ ((metaHeadTail c).data))))))))) (fun x hx => ((noSpecials_mem hidS) x hx).2.2.2.1) rfl]
  have hTitle : metaContent (generateCourseHTML c) "course-title" = some st := by
    unfold metaContent
    rw [hdata]
    rw [findAfter_clean ('<' :: metaPat "course-title") "<head>\n  <meta charset=\"utf-8\">\n  <title>".data _ (by decide)]
    rw [findAfter_text ('<' :: metaPat "course-title") ⟨_, rfl⟩ st.data _ (fun x hx => ((noSpecials_mem htS) x hx).2.1)]
    rw [findAfter_clean ('<' :: metaPat "course-title") " - Course Viewer</title>\n  <meta name=\"description\" content=\"".data _ (by decide)]
    rw [findAfter_text ('<' :: metaPat "course-title") ⟨_, rfl⟩ sd.data _ (fun x hx => ((noSpecials_mem hdS) x hx).2.1)]
    rw [findAfter_clean ('<' :: metaPat "course-title") "\">\n  <meta name=\"author\" content=\"ALM Course Viewer\">\n  <meta name=\"timestamp\" content=\"".data _ (by decide)]
    rw [findAfter_text ('<' :: metaPat "course-title") ⟨_, rfl⟩ c.timestamp.data _ (fun x hx => ((noSpecials_mem htsS) x hx).2.1)]
    rw [findAfter_clean ('<' :: metaPat "course-title") "\">\n  \n  <!-- Course Meta Tags for EDS Indexing -->\n  <meta name=\"course-id\" content=\"".data _ (by decide)]
    rw [findAfter_text ('<' :: metaPat "course-title") ⟨_, rfl⟩ sid.data _ (fun x hx => ((noSpecials_mem hidS) x hx).2.1)]
    rw [(by decide : ("\">\n  <meta name=\"course-title\" content=\"".data : List Char) = "\">\n  ".data ++ ('<' :: metaPat "course-title"))]
    rw [List.append_assoc]
    rw [findAfter_clean ('<' :: metaPat "course-title") "\">\n  ".data _ (by decide)]
    rw [findAfter_self ('<' :: metaPat "course-title") _ (List.cons_ne_nil _ _)]
    rw [Option.map_some']
    rw [takeWhile_quote_head st.data ("\">\n  <meta name=\"course-duration\" content=\"".data ++ (c.courseDuration.data ++ ("\">\n  <meta name=\"course-skill-level\" content=\"".data ++ (sl.data ++ ("\">\n  <meta name=\"course-skills\" content=\"".data ++ (c.courseSkills.data ++ ((metaHeadTail c).data))))))) (fun x hx => ((noSpecials_mem htS) x hx).2.2.2.1) rfl]
  have hDur : metaContent (generateCourseHTML c) "course-duration" = some c.courseDuration := by
    unfold metaContent
    rw [hdata]
    rw [findAfter_clean ('<' :: metaPat "course-duration") "<head>\n  <meta charset=\"utf-8\">\n  <title>".data _ (by decide)]
    rw [findAfter_text ('<' :: metaPat "course-duration") ⟨_, rfl⟩ st.data _ (fun x hx => ((noSpecials_mem htS) x hx).2.1)]
    rw [findAfter_clean ('<' :: metaPat "course-duration") " - Course Viewer</title>\n  <meta name=\"description\" content=\"".data _ (by decide)]
    rw [findAfter_text ('<' :: metaPat "course-duration") ⟨_, rfl⟩ sd.data _ (fun x hx => ((noSpecials_mem hdS) x hx).2.1)]
    rw [findAfter_clean ('<' :: metaPat "course-duration") "\">\n  <meta name=\"author\" content=\"ALM Course Viewer\">\n  <meta name=\"timestamp\" content=\"".data _ (by decide)]
    rw [findAfter_text ('<' :: metaPat "course-duration") ⟨_, rfl⟩ c.timestamp.data _ (fun x hx => ((noSpecials_mem htsS) x hx).2.1)]
    rw [findAfter_clean ('<' :: metaPat "course-duration") "\">\n  \n  <!-- Course Meta Tags for EDS Indexing -->\n  <meta name=\"course-id\" content=\"".data _ (by decide)]
    rw [findAfter_text ('<' :: metaPat "course-duration") ⟨_, rfl⟩ sid.data _ (fun x hx => ((noSpecials_mem hidS) x hx).2.1)]
    rw [findAfter_clean ('<' :: metaPat "course-duration") "\">\n  <meta name=\"course-title\" content=\"".data _ (by decide)]
    rw [findAfter_text ('<' :: metaPat "course-duration") ⟨_, rfl⟩ st.data _ (fun x hx => ((noSpecials_mem htS) x hx).2.1)]
    rw [(by decide : ("\">\n  <meta name=\"course-duration\" content=\"".data : List Char) = "\">\n  ".data ++ ('<' :: metaPat "course-duration"))]
    rw [List.append_assoc]
    rw [findAfter_clean ('<' :: metaPat "course-duration") "\">\n  ".data _ (by decide)]
    rw [findAfter_self ('<' :: metaPat "course-duration") _ (List.cons_ne_nil _ _)]
    rw [Option.map_some']
    rw [takeWhile_quote_head c.courseDuration.data ("\">\n  <meta name=\"course-skill-level\" content=\"".data ++ (sl.data ++ ("\">\n  <meta name=\"course-skills\" content=\"".data ++ (c.courseSkills.data ++ ((metaHeadTail c).data))))) (fun x hx => ((noSpecials_mem hdurS) x hx).2.2.2.1) rfl]
  have hLvl : metaContent (generateCourseHTML c) "course-skill-level" = some sl := by
    unfold metaContent
    rw [hdata]
    rw [findAfter_clean ('<' :: metaPat "course-skill-level") "<head>\n  <meta charset=\"utf-8\">\n  <title>".data _ (by decide)]
    rw [findAfter_text ('<' :: metaPat "course-skill-level") ⟨_, rfl⟩ st.data _ (fun x hx => ((noSpecials_mem htS) x hx).2.1)]
    rw [findAfter_clean ('<' :: metaPat "course-skill-level") " - Course Viewer</title>\n  <meta name=\"description\" content=\"".data _ (by decide)]
    rw [findAfter_text ('<' :: metaPat "course-skill-level") ⟨_, rfl⟩ sd.data _ (fun x hx => ((noSpecials_mem hdS) x hx).2.1)]
    rw [findAfter_clean ('<' :: metaPat "course-skill-level") "\">\n  <meta name=\"author\" content=\"ALM Course Viewer\">\n  <meta name=\"timestamp\" content=\"".data _ (by decide)]
    rw [findAfter_text ('<' :: metaPat "course-skill-level") ⟨_, rfl⟩ c.timestamp.data _ (fun x hx => ((noSpecials_mem htsS) x hx).2.1)]
    rw [findAfter_clean ('<' :: metaPat "course-skill-level") "\">\n  \n  <!-- Course Meta Tags for EDS Indexing -->\n  <meta name=\"course-id\" content=\"".data _ (by decide)]
    rw [findAfter_text ('<' :: metaPat "course-skill-level") ⟨_, rfl⟩ sid.data _ (fun x hx => ((noSpecials_mem hidS) x hx).2.1)]
    rw [findAfter_clean ('<' :: metaPat "course-skill-level") "\">\n  <meta name=\"course-title\" content=\"".data _ (by decide)]
    rw [findAfter_text ('<' :: metaPat "course-skill-level") ⟨_, rfl⟩ st.data _ (fun x hx => ((noSpecials_mem htS) x hx).2.1)]
    rw [findAfter_clean ('<' :: metaPat "course-skill-level") "\">\n  <meta name=\"course-duration\" content=\"".data _ (by decide)]
    rw [findAfter_text ('<' :: metaPat "course-skill-level") ⟨_, rfl⟩ c.courseDuration.data _ (fun x hx => ((noSpecials_mem hdurS) x hx).2.1)]
    rw [(by decide : ("\">\n  <meta name=\"course-skill-level\" content=\"".data : List Char) = "\">\n  ".data ++ ('<' :: metaPat "course-skill-level"))]
    rw [List.append_assoc]
    rw [findAfter_clean ('<' :: metaPat "course-skill-level") "\">\n  ".data _ (by decide)]
    rw [findAfter_self ('<' :: metaPat "course-skill-level") _ (List.cons_ne_nil _ _)]
    rw [Option.map_some']
    rw [takeWhile_quote_head sl.data ("\">\n  <meta name=\"course-skills\" content=\"".data ++ (c.courseSkills.data ++ ((metaHeadTail c).data))) (fun x hx => ((noSpecials_mem hlS) x hx).2.2.2.1) rfl]
  have hSk : metaContent (generateCourseHTML c) "course-skills" = some c.courseSkills := by
    unfold metaContent
    rw [hdata]
    rw [findAfter_clean ('<' :: metaPat "course-skills") "<head>\n  <meta charset=\"utf-8\">\n  <title>".data _ (by decide)]
    rw [findAfter_text ('<' :: metaPat "course-skills") ⟨_, rfl⟩ st.data _ (fun x hx => ((noSpecials_mem htS) x hx).2.1)]
    rw [findAfter_clean ('<' :: metaPat "course-skills") " - Course Viewer</title>\n  <meta name=\"description\" content=\"".data _ (by decide)]
    rw [findAfter_text ('<' :: metaPat "course-skills") ⟨_, rfl⟩ sd.data _ (fun x hx => ((noSpecials_mem hdS) x hx).2.1)]
    rw [findAfter_clean ('<' :: metaPat "course-skills") "\">\n  <meta name=\"author\" content=\"ALM Course Viewer\">\n  <meta name=\"timestamp\" content=\"".data _ (by decide)]
    rw [findAfter_text ('<' :: metaPat "course-skills") ⟨_, rfl⟩ c.timestamp.data _ (fun x hx => ((noSpecials_mem htsS) x hx).2.1)]
    rw [findAfter_clean ('<' :: metaPat "course-skills") "\">\n  \n  <!-- Course Meta Tags for EDS Indexing -->\n  <meta name=\"course-id\" content=\"".data _ (by decide)]
    rw [findAfter_text ('<' :: metaPat "course-skills") ⟨_, rfl⟩ sid.data _ (fun x hx => ((noSpecials_mem hidS) x hx).2.1)]
    rw [findAfter_clean ('<' :: metaPat "course-skills") "\">\n  <meta name=\"course-title\" content=\"".data _ (by decide)]
    rw [findAfter_text ('<' :: metaPat "course-skills") ⟨_, rfl⟩ st.data _ (fun x hx => ((noSpecials_mem htS) x hx).2.1)]
    rw [findAfter_clean ('<' :: metaPat "course-skills") "\">\n  <meta name=\"course-duration\" content=\"".data _ (by decide)]
    rw [findAfter_text ('<' :: metaPat "course-skills") ⟨_, rfl⟩ c.courseDuration.data _ (fun x hx => ((noSpecials_mem hdurS) x hx).2.1)]
    rw [findAfter_clean ('<' :: metaPat "course-skills") "\">\n  <meta name=\"course-skill-level\" content=\"".data _ (by decide)]
    rw [findAfter_text ('<' :: metaPat "course-skills") ⟨_, rfl⟩ sl.data _ (fun x hx => ((noSpecials_mem hlS) x hx).2.1)]
    rw [(by decide : ("\">\n  <meta name=\"course-skills\" content=\"".data : List Char) = "\">\n  ".data ++ ('<' :: metaPat "course-skills"))]
    rw [List.append_assoc]
    rw [findAfter_clean ('<' :: metaPat "course-skills") "\">\n  ".data _ (by decide)]
    rw [findAfter_self ('<' :: metaPat "course-skills") _ (List.cons_ne_nil _ _)]
    rw [Option.map_some']
    rw [takeWhile_quote_head c.courseSkills.data ((metaHeadTail c).data) (fun x hx => ((noSpecials_mem hskS) x hx).2.2.2.1) (metaHeadTail_head c)]
  unfold getCourseDataFromMeta
  rw [hID, hTitle, hDur, hLvl, hSk, hDesc]
  simp only [Option.getD_some]

theorem generateCourseHTML_meta_roundtrip_witness :
    getCourseDataFromMeta (generateCourseHTML c6rec) =
      { courseId := "C100"
        courseTitle := "Intro"
        courseDuration := "2h 5m"
        courseSkillLevel := "Beginner"
        courseSkills := "JS"
        courseDescription := "Basics" } :=
  generateCourseHTML_meta_roundtrip c6rec "C100" "Intro" "Basics" "Beginner"
    rfl (by decide) rfl (by decide) rfl (by decide) rfl (by decide)
    (by decide) (by decide) (by decide)

/-! ### Claim C1: escaping of interpolated text -/

set_option maxRecDepth 100000 in
set_option maxHeartbeats 4000000 in
/-- C1 counterexample: the course-rating meta content is interpolated raw
(`${courseData.ratingAvg}` in helpers.js line 685 carries no `escapeHtml`),
so changing the rating field of a record from `""` to `"<"` adds a raw `<`
to the generated document; had every interpolated text value passed through
`escapeHtml`, the number of `<` characters could not change. -/
theorem generateCourseHTML_escape_counterexample :
    countIn (generateCourseHTML { c6rec with ratingAvg := Json.str "<" }) '<'
      = countIn (generateCourseHTML c6rec) '<' + 1 := by decide

theorem countIn_append (a b : String) (ch : Char) :
    countIn (a ++ b) ch = countIn a ch + countIn b ch := by
  simp [countIn, String.data_append, List.count_append]

theorem count_noSpecials_zero {s : String} (hs : noSpecialsB s = true)
    {ch : Char} (hch : specialFour ch) : countIn s ch = 0 := by
  rw [countIn, List.count_eq_zero]
  intro hmem
  have := noSpecials_mem hs ch hmem
  rcases hch with rfl | rfl | rfl | rfl <;> tauto

theorem escChar_count_four {ch : Char} (hch : specialFour ch) (c : Char) :
    (escChar c).count ch = 0 := by
  unfold escChar
  by_cases h1 : c = '&'
  · rw [if_pos h1]; rcases hch with rfl | rfl | rfl | rfl <;> decide
  rw [if_neg h1]
  by_cases h2 : c = '<'
  · rw [if_pos h2]; rcases hch with rfl | rfl | rfl | rfl <;> decide
  rw [if_neg h2]
  by_cases h3 : c = '>'
  · rw [if_pos h3]; rcases hch with rfl | rfl | rfl | rfl <;> decide
  rw [if_neg h3]
  by_cases h4 : c = '"'
  · rw [if_pos h4]; rcases hch with rfl | rfl | rfl | rfl <;> decide
  rw [if_neg h4]
  by_cases h5 : c = '\''
  · rw [if_pos h5]; rcases hch with rfl | rfl | rfl | rfl <;> decide
  rw [if_neg h5]
  rcases hch with rfl | rfl | rfl | rfl <;>
    simp [List.count_cons, List.count_nil, h2, h3, h4, h5]

theorem count_escape_zero {ch : Char} (hch : specialFour ch) (s : String) :
    countIn (escapeHtmlStr s) ch = 0 := by
  have hall : ∀ l : List Char,
      (l.foldr (fun c acc => escChar c ++ acc) []).count ch = 0 := by
    intro l
    induction l with
    | nil => rfl
    | cons c cs ih =>
      rw [List.foldr_cons, List.count_append, ih, escChar_count_four hch c]
  exact hall s.data

theorem count_escS_zero {ch : Char} (hch : specialFour ch) (s : String) :
    countIn (escS s) ch = 0 := count_escape_zero hch s

theorem count_esc_zero {ch : Char} (hch : specialFour ch) {v : Json}
    (hv : ∃ s, v = Json.str s) : countIn (esc v) ch = 0 := by
  obtain ⟨s, rfl⟩ := hv
  rw [esc_str]
  exact count_escape_zero hch s

theorem count_escO_zero {ch : Char} (hch : specialFour ch) {x : Option Json}
    (hx : strOrUndef x) : countIn (escO x) ch = 0 := by
  rcases hx with rfl | ⟨s, rfl⟩
  · rcases hch with rfl | rfl | rfl | rfl <;> decide
  · exact count_escape_zero hch s

theorem toDigitsCore_mem : ∀ (f n : Nat) (acc : List Char) (c : Char),
    c ∈ Nat.toDigitsCore 10 f n acc → (∃ m, m < 10 ∧ c = Nat.digitChar m) ∨ c ∈ acc := by
  intro f
  induction f with
  | zero => intro n acc c hc; exact Or.inr hc
  | succ f ih =>
    intro n acc c hc
    simp only [Nat.toDigitsCore] at hc
    by_cases hdiv : n / 10 = 0
    · simp only [hdiv, if_pos rfl] at hc
      rcases List.mem_cons.mp hc with h | h
      · exact Or.inl ⟨n % 10, Nat.mod_lt n (by omega), h⟩
      · exact Or.inr h
    · rw [if_neg hdiv] at hc
      rcases ih (n / 10) (Nat.digitChar (n % 10) :: acc) c hc with h | h
      · exact Or.inl h
      · rcases List.mem_cons.mp h with h | h
        · exact Or.inl ⟨n % 10, Nat.mod_lt n (by omega), h⟩
        · exact Or.inr h

theorem digitChar_isDigit (m : Nat) (hm : m < 10) : (Nat.digitChar m).isDigit = true := by
  interval_cases m <;> decide

theorem natRepr_all_digits (n : Nat) : ∀ c ∈ (Nat.repr n).data, c.isDigit = true := by
  intro c hc
  have hmem : c ∈ Nat.toDigits 10 n := by
    simpa [Nat.repr, List.asString] using hc
  rcases toDigitsCore_mem (n + 1) n [] c hmem with ⟨m, hm, rfl⟩ | h
  · exact digitChar_isDigit m hm
  · simp at h

theorem count_natRepr_zero {ch : Char} (hch : specialFour ch) (n : Nat) :
    countIn (toString n) ch = 0 := by
  rw [countIn, List.count_eq_zero]
  intro hmem
  rcases hch with rfl | rfl | rfl | rfl <;>
    exact absurd (natRepr_all_digits n _ hmem) (by decide)


theorem isPrefixOf_mono_append {t l b : List Char} (h : t.isPrefixOf l = true) :
    t.isPrefixOf (l ++ b) = true :=
  List.isPrefixOf_iff_prefix.mpr ((List.isPrefixOf_iff_prefix.mp h).trans (List.prefix_append l b))

theorem ampOk_append {a b : List Char} (ha : ampOkB a = true) (hb : ampOkB b = true) :
    ampOkB (a ++ b) = true := by
  induction a with
  | nil => simpa using hb
  | cons ch rest ih =>
    simp only [ampOkB, Bool.and_eq_true] at ha
    obtain ⟨h1, h2⟩ := ha
    rw [List.cons_append]
    simp only [ampOkB, Bool.and_eq_true]
    refine ⟨?_, ih h2⟩
    by_cases hc : ch = '&'
    · rw [if_pos hc]
      rw [if_pos hc] at h1
      rw [List.any_eq_true] at h1 ⊢
      obtain ⟨t, ht, hpre⟩ := h1
      exact ⟨t, ht, isPrefixOf_mono_append hpre⟩
    · rw [if_neg hc]

theorem ampOk_noAmp {l : List Char} (h : ∀ c ∈ l, c ≠ '&') : ampOkB l = true := by
  induction l with
  | nil => rfl
  | cons c cs ih =>
    simp only [ampOkB, Bool.and_eq_true]
    refine ⟨?_, ih (fun x hx => h x (List.mem_cons_of_mem _ hx))⟩
    rw [if_neg (h c (List.mem_cons_self _ _))]

theorem ampOk_noSpecials {s : String} (h : noSpecialsB s = true) : ampOkB s.data = true :=
  ampOk_noAmp (fun c hc => (noSpecials_mem h c hc).1)

theorem ampOk_escChar_append (c : Char) {acc : List Char} (hacc : ampOkB acc = true) :
    ampOkB (escChar c ++ acc) = true := by
  unfold escChar
  by_cases h1 : c = '&'
  · rw [if_pos h1]; exact ampOk_append (by decide) hacc
  rw [if_neg h1]
  by_cases h2 : c = '<'
  · rw [if_pos h2]; exact ampOk_append (by decide) hacc
  rw [if_neg h2]
  by_cases h3 : c = '>'
  · rw [if_pos h3]; exact ampOk_append (by decide) hacc
  rw [if_neg h3]
  by_cases h4 : c = '"'
  · rw [if_pos h4]; exact ampOk_append (by decide) hacc
  rw [if_neg h4]
  by_cases h5 : c = '\''
  · rw [if_pos h5]; exact ampOk_append (by decide) hacc
  rw [if_neg h5]
  refine ampOk_append ?_ hacc
  exact ampOk_noAmp (fun x hx => by
    rcases List.mem_singleton.mp hx with rfl
    exact h1)

theorem ampOk_escape (s : String) : ampOkB (escapeHtmlStr s).data = true := by
  have hall : ∀ l : List Char,
      ampOkB (l.foldr (fun c acc => escChar c ++ acc) []) = true := by
    intro l
    induction l with
    | nil => rfl
    | cons c cs ih =>
      rw [List.foldr_cons]
      exact ampOk_escChar_append c ih
  exact hall s.data

theorem ampOk_escS (s : String) : ampOkB (escS s).data = true := ampOk_escape s

theorem ampOk_esc {v : Json} (hv : ∃ s, v = Json.str s) : ampOkB (esc v).data = true := by
  obtain ⟨s, rfl⟩ := hv
  rw [esc_str]
  exact ampOk_escape s

theorem ampOk_escO {x : Option Json} (hx : strOrUndef x) : ampOkB (escO x).data = true := by
  rcases hx with rfl | ⟨s, rfl⟩
  · decide
  · exact ampOk_escape s

theorem ampOk_strAppend {a b : String} (ha : ampOkB a.data = true)
    (hb : ampOkB b.data = true) : ampOkB (a ++ b).data = true := by
  rw [String.data_append]
  exact ampOk_append ha hb

theorem strJoin_count {α : Type} (ch : Char) (l : List α) (f g : α → String)
    (h : ∀ x ∈ l, countIn (f x) ch = countIn (g x) ch) :
    countIn (strJoin (l.map f)) ch = countIn (strJoin (l.map g)) ch := by
  induction l with
  | nil => rfl
  | cons x xs ih =>
    rw [List.map_cons, List.map_cons]
    show countIn (f x ++ strJoin (xs.map f)) ch = countIn (g x ++ strJoin (xs.map g)) ch
    rw [countIn_append, countIn_append, h x (List.mem_cons_self _ _),
      ih (fun y hy => h y (List.mem_cons_of_mem _ hy))]

theorem strJoin_ampOk {α : Type} (l : List α) (f : α → String)
    (h : ∀ x ∈ l, ampOkB (f x).data = true) :
    ampOkB (strJoin (l.map f)).data = true := by
  induction l with
  | nil => rfl
  | cons x xs ih =>
    rw [List.map_cons]
    show ampOkB ((f x ++ strJoin (xs.map f))).data = true
    exact ampOk_strAppend (h x (List.mem_cons_self _ _))
      (ih (fun y hy => h y (List.mem_cons_of_mem _ hy)))

theorem natRepr_noAmp (n : Nat) : ampOkB (toString n).data = true := by
  apply ampOk_noAmp
  intro c hc he
  subst he
  exact absurd (natRepr_all_digits n _ hc) (by decide)


theorem imageUrlOf_str {c : CourseRecord} (h : ∃ s, c.imageUrl = Json.str s) :
    ∃ s, imageUrlOf c = Json.str s := by
  obtain ⟨s, hs⟩ := h
  unfold imageUrlOf jsOr
  rw [hs]
  by_cases ht : truthy (Json.str s)
  · exact ⟨s, by rw [if_pos ht]⟩
  · exact ⟨_, by rw [if_neg ht]⟩

theorem prereqItem_count {ch : Char} (hch : specialFour ch) (p : PrereqR)
    (hp : strOrUndef p.name ∧ ∃ s, p.type = Json.str s) :
    countIn (prereqItemHTML p) ch = countIn (prereqItemHTML (scrubPrereq p)) ch := by
  obtain ⟨hn, htp⟩ := hp
  unfold prereqItemHTML
  simp only [scrubPrereq, countIn_append,
    count_esc_zero hch htp, count_escO_zero hch hn,
    count_esc_zero hch (⟨"", rfl⟩ : ∃ s, Json.str "" = Json.str s),
    count_escO_zero hch (Or.inr ⟨"", rfl⟩ : strOrUndef (some (Json.str "")))]

theorem jobAidItem_count {ch : Char} (hch : specialFour ch) (j : JobAidR)
    (hj : strOrUndef j.name ∧ ∃ s, j.description = Json.str s) :
    countIn (jobAidItemHTML j) ch = countIn (jobAidItemHTML (scrubJobAid j)) ch := by
  obtain ⟨hn, hdesc⟩ := hj
  unfold jobAidItemHTML
  simp only [scrubJobAid, countIn_append,
    count_esc_zero hch hdesc, count_escO_zero hch hn,
    count_esc_zero hch (⟨"", rfl⟩ : ∃ s, Json.str "" = Json.str s),
    count_escO_zero hch (Or.inr ⟨"", rfl⟩ : strOrUndef (some (Json.str "")))]

theorem moduleItem_count {ch : Char} (hch : specialFour ch) (c : CourseRecord)
    (hcid : ∃ s, c.courseId = Json.str s) (m : ModuleR)
    (hm : strOrUndef m.id ∧ strOrUndef m.name ∧ (∃ s, m.contentType = Json.str s) ∧
      noSpecialsB m.status = true ∧ noSpecialsB m.statusIcon = true) :
    countIn (moduleItemHTML c m) ch
      = countIn (moduleItemHTML (scrubRecord c) (scrubModule m)) ch := by
  obtain ⟨hid, hname, hcontent, hst, hsi⟩ := hm
  unfold moduleItemHTML
  have hcid2 : (scrubRecord c).courseId = Json.str "" := rfl
  rw [hcid2]
  simp only [scrubModule, countIn_append, count_escS_zero hch,
    count_noSpecials_zero hst hch, count_noSpecials_zero hsi hch,
    count_escO_zero hch hid, count_escO_zero hch hname,
    count_esc_zero hch hcid, count_esc_zero hch hcontent,
    count_esc_zero hch (⟨"", rfl⟩ : ∃ s, Json.str "" = Json.str s),
    count_escO_zero hch (Or.inr ⟨"", rfl⟩ : strOrUndef (some (Json.str "")))]

theorem prerequisitesHTML_count {ch : Char} (hch : specialFour ch) (c : CourseRecord)
    (hps : ∀ p ∈ c.prerequisites, strOrUndef p.name ∧ ∃ s, p.type = Json.str s) :
    countIn (prerequisitesHTML c) ch = countIn (prerequisitesHTML (scrubRecord c)) ch := by
  unfold prerequisitesHTML
  have hpr : (scrubRecord c).prerequisites = c.prerequisites.map scrubPrereq := rfl
  rw [hpr, List.length_map]
  by_cases hp : c.prerequisites.length > 0
  · rw [if_pos hp, if_pos hp]
    simp only [countIn_append, List.map_map]
    rw [strJoin_count ch c.prerequisites prereqItemHTML (prereqItemHTML ∘ scrubPrereq)
      (fun p hp' => prereqItem_count hch p (hps p hp'))]
  · rw [if_neg hp, if_neg hp]

theorem jobAidsHTML_count {ch : Char} (hch : specialFour ch) (c : CourseRecord)
    (hjs : ∀ j ∈ c.jobAids, strOrUndef j.name ∧ ∃ s, j.description = Json.str s) :
    countIn (jobAidsHTML c) ch = countIn (jobAidsHTML (scrubRecord c)) ch := by
  unfold jobAidsHTML
  have hja : (scrubRecord c).jobAids = c.jobAids.map scrubJobAid := rfl
  rw [hja, List.length_map]
  by_cases hp : c.jobAids.length > 0
  · rw [if_pos hp, if_pos hp]
    simp only [countIn_append, List.map_map]
    rw [strJoin_count ch c.jobAids jobAidItemHTML (jobAidItemHTML ∘ scrubJobAid)
      (fun j hj' => jobAidItem_count hch j (hjs j hj'))]
  · rw [if_neg hp, if_neg hp]

theorem modulesHTML_count {ch : Char} (hch : specialFour ch) (c : CourseRecord)
    (hcid : ∃ s, c.courseId = Json.str s)
    (hms : ∀ m ∈ c.coreModules, strOrUndef m.id ∧ strOrUndef m.name ∧
      (∃ s, m.contentType = Json.str s) ∧
      noSpecialsB m.status = true ∧ noSpecialsB m.statusIcon = true) :
    countIn (modulesHTML c) ch = countIn (modulesHTML (scrubRecord c)) ch := by
  unfold modulesHTML
  have hcm : (scrubRecord c).coreModules = c.coreModules.map scrubModule := rfl
  rw [hcm]
  simp only [countIn_append, List.map_map, count_escS_zero hch]
  rw [strJoin_count ch c.coreModules (moduleItemHTML c)
    (moduleItemHTML (scrubRecord c) ∘ scrubModule)
    (fun m hm => moduleItem_count hch c hcid m (hms m hm))]

theorem prereqItem_ampOk (p : PrereqR)
    (hp : strOrUndef p.name ∧ ∃ s, p.type = Json.str s) :
    ampOkB (prereqItemHTML p).data = true := by
  obtain ⟨hn, htp⟩ := hp
  unfold prereqItemHTML
  repeat' apply ampOk_strAppend
  all_goals first
    | decide
    | exact ampOk_esc htp
    | exact ampOk_escO hn

theorem jobAidItem_ampOk (j : JobAidR)
    (hj : strOrUndef j.name ∧ ∃ s, j.description = Json.str s) :
    ampOkB (jobAidItemHTML j).data = true := by
  obtain ⟨hn, hdesc⟩ := hj
  unfold jobAidItemHTML
  repeat' apply ampOk_strAppend
  all_goals first
    | decide
    | exact ampOk_esc hdesc
    | exact ampOk_escO hn

set_option maxRecDepth 20000 in
theorem moduleItem_ampOk (c : CourseRecord) (m : ModuleR)
    (hcid : ∃ s, c.courseId = Json.str s)
    (hm : strOrUndef m.id ∧ strOrUndef m.name ∧ (∃ s, m.contentType = Json.str s) ∧
      noSpecialsB m.status = true ∧ noSpecialsB m.statusIcon = true) :
    ampOkB (moduleItemHTML c m).data = true := by
  obtain ⟨hid, hname, hcontent, hst, hsi⟩ := hm
  unfold moduleItemHTML
  repeat' apply ampOk_strAppend
  all_goals first
    | decide
    | exact ampOk_esc hcid
    | exact ampOk_esc hcontent
    | exact ampOk_escO hid
    | exact ampOk_escO hname
    | exact ampOk_escS _
    | exact ampOk_noSpecials hst
    | exact ampOk_noSpecials hsi

set_option maxRecDepth 20000 in
theorem prerequisitesHTML_ampOk (c : CourseRecord)
    (hps : ∀ p ∈ c.prerequisites, strOrUndef p.name ∧ ∃ s, p.type = Json.str s) :
    ampOkB (prerequisitesHTML c).data = true := by
  unfold prerequisitesHTML
  by_cases hp : c.prerequisites.length > 0
  · rw [if_pos hp]
    refine ampOk_strAppend (ampOk_strAppend (by decide) ?_) (by decide)
    exact strJoin_ampOk _ _ (fun p hp' => prereqItem_ampOk p (hps p hp'))
  · rw [if_neg hp]; decide

set_option maxRecDepth 20000 in
theorem jobAidsHTML_ampOk (c : CourseRecord)
    (hjs : ∀ j ∈ c.jobAids, strOrUndef j.name ∧ ∃ s, j.description = Json.str s) :
    ampOkB (jobAidsHTML c).data = true := by
  unfold jobAidsHTML
  by_cases hp : c.jobAids.length > 0
  · rw [if_pos hp]
    refine ampOk_strAppend (ampOk_strAppend (by decide) ?_) (by decide)
    exact strJoin_ampOk _ _ (fun j hj' => jobAidItem_ampOk j (hjs j hj'))
  · rw [if_neg hp]; decide

set_option maxRecDepth 20000 in
theorem modulesHTML_ampOk (c : CourseRecord)
    (hcid : ∃ s, c.courseId = Json.str s)
    (hms : ∀ m ∈ c.coreModules, strOrUndef m.id ∧ strOrUndef m.name ∧
      (∃ s, m.contentType = Json.str s) ∧
      noSpecialsB m.status = true ∧ noSpecialsB m.statusIcon = true) :
    ampOkB (modulesHTML c).data = true := by
  unfold modulesHTML
  repeat' apply ampOk_strAppend
  all_goals first
    | decide
    | exact ampOk_escS _
    | exact strJoin_ampOk _ _ (fun m hm => moduleItem_ampOk c m hcid (hms m hm))

theorem scrub_ts_ns (c : CourseRecord) : noSpecialsB (scrubRecord c).timestamp = true := by
  have h : (scrubRecord c).timestamp = "" := rfl
  rw [h]; decide

theorem scrub_ra_ns (c : CourseRecord) :
    noSpecialsB (jsToString (scrubRecord c).ratingAvg) = true := by
  have h : (scrubRecord c).ratingAvg = Json.str "" := rfl
  rw [h]; decide

theorem scrub_ec_ns (c : CourseRecord) :
    noSpecialsB (jsToString (scrubRecord c).enrollmentCount) = true := by
  have h : (scrubRecord c).enrollmentCount = Json.str "" := rfl
  rw [h]; decide

set_option maxRecDepth 40000 in
set_option maxHeartbeats 2000000 in
/-- C1 (amended): under the typing of the record the normalizer produces,
every *escaped* interpolation position contributes no raw markup character:
for the four structure-changing characters the character count of the
document equals that of the document generated from the record with all
text fields blanked, and every ampersand in the document starts one of the
five escape entities. The rating, enrollment count, timestamp, module
status class and status icon are interpolated raw (the hypothesis has to
assume them special-free), so the original claim that they pass through
escapeHtml is false. -/
theorem generateCourseHTML_escaped (c : CourseRecord) (h : TextFields c)
    (ch : Char) (hch : specialFour ch) :
    countIn (generateCourseHTML c) ch = countIn (generateCourseHTML (scrubRecord c)) ch ∧
    ampOkB (generateCourseHTML c).data = true := by
  obtain ⟨hcid, hct, hcd, hcl, hlf, himg, hra, hec, hts, hms, hps, hjs⟩ := h
  constructor
  · unfold generateCourseHTML
    simp only [countIn_append,
      count_esc_zero hch hct, count_esc_zero hch hcd, count_esc_zero hch hcid,
      count_esc_zero hch hcl, count_esc_zero hch hlf,
      count_esc_zero hch (imageUrlOf_str himg),
      count_escS_zero hch,
      count_noSpecials_zero hts hch, count_noSpecials_zero hra hch,
      count_noSpecials_zero hec hch,
      count_natRepr_zero hch,
      count_esc_zero hch (⟨"", rfl⟩ : ∃ s, (scrubRecord c).courseTitle = Json.str s),
      count_esc_zero hch (⟨"", rfl⟩ : ∃ s, (scrubRecord c).courseDescription = Json.str s),
      count_esc_zero hch (⟨"", rfl⟩ : ∃ s, (scrubRecord c).courseId = Json.str s),
      count_esc_zero hch (⟨"", rfl⟩ : ∃ s, (scrubRecord c).courseLevel = Json.str s),
      count_esc_zero hch (⟨"", rfl⟩ : ∃ s, (scrubRecord c).loFormat = Json.str s),
      count_esc_zero hch (imageUrlOf_str (⟨"", rfl⟩ : ∃ s, (scrubRecord c).imageUrl = Json.str s)),
      count_noSpecials_zero (scrub_ts_ns c) hch,
      count_noSpecials_zero (scrub_ra_ns c) hch,
      count_noSpecials_zero (scrub_ec_ns c) hch, Nat.add_zero, Nat.zero_add,
      prerequisitesHTML_count hch c hps,
      jobAidsHTML_count hch c hjs,
      modulesHTML_count hch c hcid hms]
  · unfold generateCourseHTML
    repeat' apply ampOk_strAppend
    all_goals first
      | decide
      | exact ampOk_esc hct
      | exact ampOk_esc hcd
      | exact ampOk_esc hcid
      | exact ampOk_esc hcl
      | exact ampOk_esc hlf
      | exact ampOk_esc (imageUrlOf_str himg)
      | exact ampOk_escS _
      | exact ampOk_noSpecials hts
      | exact ampOk_noSpecials hra
      | exact ampOk_noSpecials hec
      | exact natRepr_noAmp _
      | exact prerequisitesHTML_ampOk c hps
      | exact modulesHTML_ampOk c hcid hms
      | exact jobAidsHTML_ampOk c hjs
      | exact strJoin_ampOk _ _ (fun m hm => moduleItem_ampOk c m hcid (hms m hm))

set_option maxRecDepth 100000 in
set_option maxHeartbeats 4000000 in
theorem generateCourseHTML_escaped_witness :
    countIn (generateCourseHTML c1rec) '<'
        = countIn (generateCourseHTML (scrubRecord c1rec)) '<' ∧
      ampOkB (generateCourseHTML c1rec).data = true :=
  generateCourseHTML_escaped c1rec
    ⟨⟨"C100", rfl⟩, ⟨"Intro", rfl⟩, ⟨"Basics", rfl⟩, ⟨"Beginner", rfl⟩,
      ⟨"Self Paced", rfl⟩, ⟨"https://img", rfl⟩, by decide, by decide, by decide,
      fun m hm => absurd hm (List.not_mem_nil m),
      fun p hp => absurd hp (List.not_mem_nil p),
      fun j hj => absurd hj (List.not_mem_nil j)⟩
    '<' (Or.inl rfl)

/-! ### Claim C2: the action entry point's response statuses -/

theorem processWebhook_inl {w : Json} {r : Response}
    (h : processWebhook w = .ok (.inl r)) : ∃ m, r = errorResponse 400 m := by
  unfold processWebhook at h
  cases h1 : jsSelO (jsOptChain (jsGetO w "events") "0") "data" with
  | error e => simp [h1, exBind_err] at h
  | ok dta =>
    simp only [h1, exBind_ok] at h
    by_cases h2 : truthyO dta = true
    · rw [if_pos h2] at h
      cases h3 : jsSelO dta "loId" with
      | error e => simp [h3, exBind_err] at h
      | ok loId =>
        simp only [h3, exBind_ok] at h
        by_cases h4 : truthyO loId = true
        · rw [if_pos h4] at h
          match loId, h with
          | none, h => simp [exBind_err] at h
          | some .null, h => simp [exBind_err] at h
          | some (.bool b), h => simp [exBind_err] at h
          | some (.num n), h => simp [exBind_err] at h
          | some (.arr xs), h => simp [exBind_err] at h
          | some (.obj fs), h => simp [exBind_err] at h
          | some (.str s), h =>
            simp only [exPure, exBind_ok] at h
            by_cases h5 : (jsSplit s ':').length = 2
            · rw [if_pos h5] at h
              cases h6 : jsSelO dta "instanceId" with
              | error e => simp [h6, exBind_err] at h
              | ok inst =>
                simp only [h6, exBind_ok] at h
                by_cases h7 : truthyO inst = true
                · rw [if_pos h7] at h
                  simp [exPure] at h
                · rw [if_neg h7] at h
                  simp [exPure] at h
            · rw [if_neg h5] at h
              simp only [exPure, Except.ok.injEq, Sum.inl.injEq] at h
              exact ⟨_, h.symm⟩
        · rw [if_neg h4] at h
          simp only [exPure, Except.ok.injEq, Sum.inl.injEq] at h
          exact ⟨_, h.symm⟩
    · rw [if_neg h2] at h
      simp only [exPure, Except.ok.injEq, Sum.inl.injEq] at h
      exact ⟨_, h.symm⟩

theorem processPath_inl {pw : Option Json} {r : Response}
    (h : processPath pw = .ok (.inl r)) : ∃ m, r = errorResponse 404 m := by
  unfold processPath at h
  match pw, h with
  | none, h => simp [exBind_err] at h
  | some .null, h => simp [exBind_err] at h
  | some (.bool b), h => simp [exBind_err] at h
  | some (.num n), h => simp [exBind_err] at h
  | some (.arr xs), h => simp [exBind_err] at h
  | some (.obj fs), h => simp [exBind_err] at h
  | some (.str s), h =>
    simp only [exPure, exBind_ok] at h
    by_cases h1 : hasInfix "/overview/trainingId/".data
        (if strStartsWith s "/" then s else "/" ++ s).data = true
    · rw [if_pos h1] at h
      by_cases h2 : (3 ≤ ((jsSplit (if strStartsWith s "/" then s else "/" ++ s) '/').filter
            (fun part => part.length > 0)).length
          && ((jsSplit (if strStartsWith s "/" then s else "/" ++ s) '/').filter
            (fun part => part.length > 0)).getD 0 "" == "overview"
          && ((jsSplit (if strStartsWith s "/" then s else "/" ++ s) '/').filter
            (fun part => part.length > 0)).getD 1 "" == "trainingId") = true
      · rw [if_pos h2] at h
        by_cases h3 : (5 ≤ ((jsSplit (if strStartsWith s "/" then s else "/" ++ s) '/').filter
              (fun part => part.length > 0)).length
            && ((jsSplit (if strStartsWith s "/" then s else "/" ++ s) '/').filter
              (fun part => part.length > 0)).getD 3 "" == "trainingInstanceId") = true
        · rw [if_pos h3] at h
          simp [exPure] at h
        · rw [if_neg h3] at h
          simp [exPure] at h
      · rw [if_neg h2] at h
        simp [exPure] at h
    · rw [if_neg h1] at h
      simp only [exPure, Except.ok.injEq, Sum.inl.injEq] at h
      exact ⟨_, h.symm⟩

theorem afterRoute_shape (fd : Option Json) (coin : Nat → Bool) (now : String)
    (routed : Sum Response (Option String × Json))
    (hr : ∀ r, routed = Sum.inl r → r.statusCode = 400 ∨ r.statusCode = 404) :
    (∃ e, afterRoute fd coin now routed = .error e) ∨
    (∃ rp, afterRoute fd coin now routed = .ok rp ∧
      (rp.1.statusCode = 200 ∨ rp.1.statusCode = 400 ∨ rp.1.statusCode = 404) ∧
      (rp.2 = none ∨ rp.1.statusCode = 200)) := by
  cases routed with
  | inl r =>
    right
    refine ⟨(r, none), rfl, ?_, Or.inl rfl⟩
    rcases hr r rfl with h | h
    · exact Or.inr (Or.inl h)
    · exact Or.inr (Or.inr h)
  | inr ci =>
    obtain ⟨cid?, inst⟩ := ci
    cases cid? with
    | none => right; exact ⟨_, rfl, Or.inr (Or.inl rfl), Or.inl rfl⟩
    | some cid =>
      by_cases hc : cid = ""
      · right
        refine ⟨(errorResponse 400 "Could not extract course ID from request", none),
          ?_, Or.inr (Or.inl rfl), Or.inl rfl⟩
        simp [afterRoute, hc, exPure]
      · by_cases hf : truthyO fd = true
        · cases hPd : processCourseData (fd.getD .null) (.str cid) inst coin now with
          | error e =>
            left
            exact ⟨e, by simp [afterRoute, hc, hf, hPd, exBind_err]⟩
          | ok record =>
            right
            refine ⟨(htmlResponse (generateCourseHTML record), some (cid, inst)),
              ?_, Or.inl rfl, Or.inr rfl⟩
            simp [afterRoute, hc, hf, hPd, exBind_ok, exPure]
        · right
          refine ⟨(errorResponse 404 "Course not found", none),
            ?_, Or.inr (Or.inr rfl), Or.inl rfl⟩
          simp [afterRoute, hc, hf, exPure]

theorem mainTry_shape (ps : String → Option Json) (now : String) (fd : Option Json)
    (coin : Nat → Bool) (params : Json) :
    (∃ e, mainTry ps now fd coin params = .error e) ∨
    (∃ rp, mainTry ps now fd coin params = .ok rp ∧
      (rp.1.statusCode = 200 ∨ rp.1.statusCode = 400 ∨ rp.1.statusCode = 404) ∧
      (rp.2 = none ∨ rp.1.statusCode = 200)) := by
  by_cases hT : jsStrictEqO (jsGetO params "message") (some (Json.str "Test Connection")) = true
  · right
    exact ⟨(testConnectionResponse now, none), by simp [mainTry, hT, exPure],
      Or.inl rfl, Or.inl rfl⟩
  · by_cases hW : webhookUsable (webhookDataOf ps now params) = true
    · cases hR : processWebhook ((webhookDataOf ps now params).getD .null) with
      | error e =>
        left
        exact ⟨e, by simp [mainTry, hT, hW, hR, exBind_err]⟩
      | ok routed =>
        have hmain : mainTry ps now fd coin params = afterRoute fd coin now routed := by
          simp [mainTry, hT, hW, hR, exBind_ok]
        have hr : ∀ r, routed = Sum.inl r → r.statusCode = 400 ∨ r.statusCode = 404 := by
          intro r hrr
          subst hrr
          obtain ⟨m, hm⟩ := processWebhook_inl hR
          rw [hm]
          exact Or.inl rfl
        rcases afterRoute_shape fd coin now routed hr with ⟨e, he⟩ | ⟨rp, hrp, hs1, hs2⟩
        · exact Or.inl ⟨e, hmain.trans he⟩
        · exact Or.inr ⟨rp, hmain.trans hrp, hs1, hs2⟩
    · by_cases hP : truthyO (jsGetO params "__ow_path") = true
      · cases hR : processPath (jsGetO params "__ow_path") with
        | error e =>
          left
          exact ⟨e, by simp [mainTry, hT, hW, hP, hR, exBind_err]⟩
        | ok routed =>
          have hmain : mainTry ps now fd coin params = afterRoute fd coin now routed := by
            simp [mainTry, hT, hW, hP, hR, exBind_ok]
          have hr : ∀ r, routed = Sum.inl r → r.statusCode = 400 ∨ r.statusCode = 404 := by
            intro r hrr
            subst hrr
            obtain ⟨m, hm⟩ := processPath_inl hR
            rw [hm]
            exact Or.inr rfl
          rcases afterRoute_shape fd coin now routed hr with ⟨e, he⟩ | ⟨rp, hrp, hs1, hs2⟩
          · exact Or.inl ⟨e, hmain.trans he⟩
          · exact Or.inr ⟨rp, hmain.trans hrp, hs1, hs2⟩
      · right
        refine ⟨(errorResponse 400 "Missing webhook payload or URL path", none),
          ?_, Or.inr (Or.inl rfl), Or.inl rfl⟩
        simp [mainTry, hT, hW, hP, exBind_ok, exPure, afterRoute]

/-- C2: for every params value the action returns a response and never
propagates an exception: the status code is always one of 200, 400, 404,
500; every error thrown while processing is caught and answered with the
500 server-error response; a test-connection message is answered 200; a
request with no usable webhook payload and no path is answered 400; and a
path that is not a course overlay path is answered 404 (with the
slash-normalised path named in the message). -/
theorem mainAction_status_characterisation (ps : String → Option Json) (now : String)
    (fd : Option Json) (coin : Nat → Bool) (params : Json) :
    ((mainAction ps now fd coin params).1.statusCode = 200 ∨
     (mainAction ps now fd coin params).1.statusCode = 400 ∨
     (mainAction ps now fd coin params).1.statusCode = 404 ∨
     (mainAction ps now fd coin params).1.statusCode = 500) ∧
    (∀ e, mainTry ps now fd coin params = .error e →
      mainAction ps now fd coin params = (errorResponse 500 "server error", none)) ∧
    (jsStrictEqO (jsGetO params "message") (some (Json.str "Test Connection")) = true →
      mainAction ps now fd coin params = (testConnectionResponse now, none)) ∧
    (jsStrictEqO (jsGetO params "message") (some (Json.str "Test Connection")) = false →
      webhookUsable (webhookDataOf ps now params) = false →
      truthyO (jsGetO params "__ow_path") = false →
      mainAction ps now fd coin params
        = (errorResponse 400 "Missing webhook payload or URL path", none)) ∧
    (∀ p, jsStrictEqO (jsGetO params "message") (some (Json.str "Test Connection")) = false →
      webhookUsable (webhookDataOf ps now params) = false →
      jsGetO params "__ow_path" = some (Json.str p) →
      truthy (Json.str p) = true →
      hasInfix "/overview/trainingId/".data
        (if strStartsWith p "/" then p else "/" ++ p).data = false →
      mainAction ps now fd coin params
        = (errorResponse 404 ((if strStartsWith p "/" then p else "/" ++ p)
            ++ " is not a course overlay path"), none)) := by
  refine ⟨?_, ?_, ?_, ?_, ?_⟩
  · rcases mainTry_shape ps now fd coin params with ⟨e, he⟩ | ⟨rp, hrp, hs1, _⟩
    · have : mainAction ps now fd coin params = (errorResponse 500 "server error", none) := by
        unfold mainAction
        rw [he]
      rw [this]
      exact Or.inr (Or.inr (Or.inr rfl))
    · have : mainAction ps now fd coin params = rp := by
        unfold mainAction
        rw [hrp]
      rw [this]
      rcases hs1 with h | h | h
      · exact Or.inl h
      · exact Or.inr (Or.inl h)
      · exact Or.inr (Or.inr (Or.inl h))
  · intro e he
    unfold mainAction
    rw [he]
  · intro hT
    have hmt : mainTry ps now fd coin params = .ok (testConnectionResponse now, none) := by
      simp [mainTry, hT, exPure]
    unfold mainAction
    rw [hmt]
  · intro hT hW hP
    have hmt : mainTry ps now fd coin params
        = .ok (errorResponse 400 "Missing webhook payload or URL path", none) := by
      simp [mainTry, hT, hW, hP, exBind_ok, exPure, afterRoute]
    unfold mainAction
    rw [hmt]
  · intro p hT hW hp htp hInf
    have htO : truthyO (some (Json.str p)) = true := htp
    have hmt : mainTry ps now fd coin params
        = .ok (errorResponse 404 ((if strStartsWith p "/" then p else "/" ++ p)
            ++ " is not a course overlay path"), none) := by
      simp [mainTry, hT, hW, hp, htO, processPath, hInf, exBind_ok, exPure, afterRoute]
    unfold mainAction
    rw [hmt]

theorem mainAction_status_characterisation_witness :
    mainAction (fun _ => none) "T" none (fun _ => false)
        (Json.obj [("__ow_path", Json.str "/foo")])
      = (errorResponse 404 "/foo is not a course overlay path", none) :=
  (mainAction_status_characterisation (fun _ => none) "T" none (fun _ => false)
      (Json.obj [("__ow_path", Json.str "/foo")])).2.2.2.2 "/foo"
    (by decide) (by decide) rfl (by decide) (by decide)

/-! ### Claim C5: the publisher is best-effort and isolated -/

theorem strAppend_left_cancel {s t u : String} (h : s ++ t = s ++ u) : t = u := by
  have h2 := congrArg String.data h
  rw [String.data_append, String.data_append] at h2
  have h3 := List.append_cancel_left h2
  calc t = String.mk t.data := rfl
    _ = String.mk u.data := by rw [h3]
    _ = u := rfl

theorem publishUrl_inj {cid : String} :
    Function.Injective (fun i => publishUrl (cid ++ "/trainingInstanceId/" ++ i)) := by
  intro a b hab
  simp only [publishUrl] at hab
  exact strAppend_left_cancel (strAppend_left_cancel hab)

/-- C5: the publisher is best-effort and isolated from the response: the
response never depends on the publisher's instance fetch, a response that
is not the 200 HTML page publishes nothing, a falsy EDS_AUTH_TOKEN
publishes nothing, at most one POST target is issued per fetched course
instance (never more than max 1 n targets for n instances, and distinct
instance ids give pairwise-distinct targets, so no target is issued
twice), and the POST outcomes feed only logging by construction of the
publish model. -/
theorem publishToEdsCache_best_effort (ps : String → Option Json) (now : String)
    (fd : Option Json) (coin : Nat → Bool) (params : Json) (instDoc : Option Json) :
    (∀ d1 d2, (mainRun ps now fd coin d1 params).1 = (mainRun ps now fd coin d2 params).1) ∧
    ((mainRun ps now fd coin instDoc params).1.statusCode ≠ 200 →
      (mainRun ps now fd coin instDoc params).2 = []) ∧
    (truthyO (jsGetO params "EDS_AUTH_TOKEN") = false →
      (mainRun ps now fd coin instDoc params).2 = []) ∧
    ((mainRun ps now fd coin instDoc params).2.length
        ≤ max 1 (fetchCourseInstances instDoc).length) ∧
    (((fetchCourseInstances instDoc).map InstanceRec.id).Nodup →
      (mainRun ps now fd coin instDoc params).2.Nodup) := by
  refine ⟨?_, ?_, ?_, ?_, ?_⟩
  · intro d1 d2
    cases hM : mainAction ps now fd coin params with
    | mk r pub =>
      cases pub with
      | none => simp [mainRun, hM]
      | some ci =>
        obtain ⟨cid, inst⟩ := ci
        simp [mainRun, hM]
  · intro hs
    rcases mainTry_shape ps now fd coin params with ⟨e, he⟩ | ⟨rp, hrp, _, hs2⟩
    · have hM : mainAction ps now fd coin params = (errorResponse 500 "server error", none) := by
        unfold mainAction
        rw [he]
      simp [mainRun, hM]
    · obtain ⟨r, pub⟩ := rp
      have hM : mainAction ps now fd coin params = (r, pub) := by
        unfold mainAction
        rw [hrp]
      rcases hs2 with h2 | h2
      · simp only at h2
        subst h2
        simp [mainRun, hM]
      · exfalso
        apply hs
        simp only at h2
        simp [mainRun, hM]
        cases pub with
        | none => exact h2
        | some ci => obtain ⟨cid, inst⟩ := ci; exact h2
  · intro htok
    cases hM : mainAction ps now fd coin params with
    | mk r pub =>
      cases pub with
      | none => simp [mainRun, hM]
      | some ci =>
        obtain ⟨cid, inst⟩ := ci
        simp [mainRun, hM, publishTargets, htok]
  · cases hM : mainAction ps now fd coin params with
    | mk r pub =>
      cases pub with
      | none => simp [mainRun, hM]
      | some ci =>
        obtain ⟨cid, inst⟩ := ci
        have hrun : (mainRun ps now fd coin instDoc params).2
            = publishTargets params instDoc cid inst := by
          simp [mainRun, hM]
        rw [hrun]
        unfold publishTargets
        by_cases htok : truthyO (jsGetO params "EDS_AUTH_TOKEN") = true
        · rw [if_neg (by simp [htok])]
          by_cases hin : truthy inst = true
          · rw [if_pos hin]
            exact Nat.le_max_left 1 _
          · rw [if_neg hin]
            by_cases hl : (fetchCourseInstances instDoc).length > 0
            · rw [if_pos hl]
              rw [List.length_map]
              exact Nat.le_max_right 1 _
            · rw [if_neg hl]
              exact Nat.le_max_left 1 _
        · rw [if_pos (by simp [htok])]
          exact Nat.zero_le _
  · intro hnd
    cases hM : mainAction ps now fd coin params with
    | mk r pub =>
      cases pub with
      | none => simp [mainRun, hM]
      | some ci =>
        obtain ⟨cid, inst⟩ := ci
        have hrun : (mainRun ps now fd coin instDoc params).2
            = publishTargets params instDoc cid inst := by
          simp [mainRun, hM]
        rw [hrun]
        unfold publishTargets
        by_cases htok : truthyO (jsGetO params "EDS_AUTH_TOKEN") = true
        · rw [if_neg (by simp [htok])]
          by_cases hin : truthy inst = true
          · rw [if_pos hin]
            exact List.nodup_singleton _
          · rw [if_neg hin]
            by_cases hl : (fetchCourseInstances instDoc).length > 0
            · rw [if_pos hl]
              have hmm : (fetchCourseInstances instDoc).map
                  (fun i => publishUrl (cid ++ "/trainingInstanceId/" ++ i.id))
                  = ((fetchCourseInstances instDoc).map InstanceRec.id).map
                    (fun i => publishUrl (cid ++ "/trainingInstanceId/" ++ i)) := by
                rw [List.map_map]
                rfl
              rw [hmm]
              exact hnd.map publishUrl_inj
            · rw [if_neg hl]
              exact List.nodup_singleton _
        · rw [if_pos (by simp [htok])]
          exact List.nodup_nil

theorem publishToEdsCache_best_effort_witness :
    (((fetchCourseInstances none).map InstanceRec.id).Nodup ∧
      truthyO (jsGetO (Json.obj [("__ow_path", Json.str "/foo")]) "EDS_AUTH_TOKEN") = false) ∧
    (mainRun (fun _ => none) "T" none (fun _ => false) none
        (Json.obj [("__ow_path", Json.str "/foo")])).2 = [] ∧
    (mainRun (fun _ => none) "T" none (fun _ => false) none
        (Json.obj [("__ow_path", Json.str "/foo")])).2.Nodup :=
  ⟨⟨by decide, by decide⟩,
    (publishToEdsCache_best_effort (fun _ => none) "T" none (fun _ => false)
        (Json.obj [("__ow_path", Json.str "/foo")]) none).2.2.1 (by decide),
    (publishToEdsCache_best_effort (fun _ => none) "T" none (fun _ => false)
        (Json.obj [("__ow_path", Json.str "/foo")]) none).2.2.2.2 (by decide)⟩
